import Mathlib

/-!
Shallow embedding of the multi-corpus retrieval engine of the PersonalTutor
repository (files `rag/metadata_schema.py` and `rag/tools/corpus_tools.py`).

Python strings are modelled as `List Char` (with `String` wrappers were
convenient); the string operations used by the source (`str.strip`,
`str.upper`, `str.replace`, and the two fixed regular expressions
`(?<!^)(?<!_)([A-Z])` and `_+`) are transcribed as executable functions on
ASCII characters. Python dictionaries are modelled as association lists in
insertion order, Python values by the inductive `PyVal`, and each fallible
external service call (the Vertex retrieval call, the corpus listing) by an
`Except String` parameter, mirroring the `try/except` boundaries of the
source.
-/

namespace Rag

/-- The whitespace characters stripped by Python `str.strip()` (ASCII part). -/
def pyIsSpace (c : Char) : Bool :=
  c = ' ' || c = '\t' || c = '\n' || c = '\x0d' || c = '\x0b' || c = '\x0c'

/-- ASCII lowercase letter test (`a`-`z`), the class affected by `str.upper()`. -/
def isLowerAZ (c : Char) : Bool :=
  97 ≤ c.toNat && c.toNat ≤ 122

/-- ASCII uppercase letter test: the regex class `[A-Z]` of the source. -/
def isAZ (c : Char) : Bool :=
  65 ≤ c.toNat && c.toNat ≤ 90

/-- ASCII digit test: the regex class `\d` (over the data the source handles). -/
def isDigitC (c : Char) : Bool :=
  48 ≤ c.toNat && c.toNat ≤ 57

/-- Regex word-character class `\w` (`[A-Za-z0-9_]`), used for `\b` boundaries. -/
def isWordC (c : Char) : Bool :=
  isAZ c || isLowerAZ c || isDigitC c || c = '_'

/-- `str.upper()` on one ASCII character (identity outside `a`-`z`). -/
def asciiUpper (c : Char) : Char :=
  if isLowerAZ c then Char.ofNat (c.toNat - 32) else c

/-- `str.lower()` on one ASCII character (identity outside `A`-`Z`). -/
def asciiLower (c : Char) : Char :=
  if isAZ c then Char.ofNat (c.toNat + 32) else c

/-- Drop the longest prefix of characters satisfying `p` (left strip). -/
def lstrip (p : Char → Bool) : List Char → List Char
  | [] => []
  | c :: rest => if p c then lstrip p rest else c :: rest

/-- Drop the longest suffix of characters satisfying `p` (right strip). -/
def rstrip (p : Char → Bool) : List Char → List Char
  | [] => []
  | c :: rest =>
    let r := rstrip p rest
    if r = [] && p c then [] else c :: r

/-- Python `str.strip()`: remove leading and trailing whitespace. -/
def pyStrip (l : List Char) : List Char :=
  rstrip pyIsSpace (lstrip pyIsSpace l)

/-- Python `str.replace(a, b)` for one-character `a`, `b`. -/
def replaceChar (a b : Char) (l : List Char) : List Char :=
  l.map fun c => if c = a then b else c

/-- Tail of `re.sub(r'(?<!^)(?<!_)([A-Z])', r'_\1', s)`: `p` is the character
of the original string standing before the current position, so an underscore
is inserted before every `[A-Z]` character whose predecessor is not `_`. -/
def camelAux (p : Char) : List Char → List Char
  | [] => []
  | c :: rest =>
    (if isAZ c && p ≠ '_' then ['_', c] else [c]) ++ camelAux c rest

/-- `re.sub(r'(?<!^)(?<!_)([A-Z])', r'_\1', s)`: insert `_` before each capital
letter that is neither at the start nor already preceded by `_`. -/
def camelSub : List Char → List Char
  | [] => []
  | c :: rest => c :: camelAux c rest

/-- `re.sub(r'_+', '_', s)`: collapse each run of underscores to a single one. -/
def collapseUnd : List Char → List Char
  | [] => []
  | [c] => [c]
  | a :: b :: rest =>
    if a = '_' && b = '_' then collapseUnd (b :: rest)
    else a :: collapseUnd (b :: rest)

/-- An underscore, the character class of Python `str.strip('_')`. -/
def isUnd (c : Char) : Bool := c = '_'

/-- Python `str.strip('_')`: remove leading and trailing underscores. -/
def stripUnd (l : List Char) : List Char :=
  rstrip isUnd (lstrip isUnd l)

/-- The `board` branch of `create_metadata_filter` (`metadata_schema.py`,
lines 192-206): trim, `-`/`.` to `_`, camelCase split, uppercase, spaces to
`_`, collapse underscore runs, strip outer underscores. The spec names this
algorithm `normalize_board`. -/
def normalize_board (l : List Char) : List Char :=
  stripUnd (collapseUnd (replaceChar ' ' '_'
    ((camelSub (replaceChar '.' '_' (replaceChar '-' '_' (pyStrip l)))).map asciiUpper)))

/-- `normalize_board` on `String`. -/
def normalizeBoardS (s : String) : String :=
  ⟨normalize_board s.data⟩

/-- The `board` normalization of `validate_metadata` (`metadata_schema.py`,
line 73): `str(value).strip().upper().replace(" ", "_")`. -/
def vmNormalizeBoard (l : List Char) : List Char :=
  replaceChar ' ' '_' ((pyStrip l).map asciiUpper)

/-- `vmNormalizeBoard` on `String`. -/
def vmNormalizeBoardS (s : String) : String :=
  ⟨vmNormalizeBoard s.data⟩

/-- The normalization applied to the stored metadata value by the client-side
filter of `query_rag_corpus` (`corpus_tools.py`, lines 802-806): uppercase
first, then `-`/`.` to `_`, then the camelCase regex, then spaces to `_`,
collapse and strip underscores. -/
def clientNormMeta (l : List Char) : List Char :=
  stripUnd (collapseUnd (replaceChar ' ' '_'
    (camelSub (replaceChar '.' '_' (replaceChar '-' '_' ((pyStrip l).map asciiUpper))))))

/-- `clientNormMeta` on `String`. -/
def clientNormMetaS (s : String) : String :=
  ⟨clientNormMeta s.data⟩

/-- The normalization applied to the filter value by the client-side filter of
`query_rag_corpus` (`corpus_tools.py`, lines 808-810): like `clientNormMeta`
but without the camelCase regex. -/
def clientNormFilter (l : List Char) : List Char :=
  stripUnd (collapseUnd (replaceChar ' ' '_'
    (replaceChar '.' '_' (replaceChar '-' '_' ((pyStrip l).map asciiUpper)))))

/-- `clientNormFilter` on `String`. -/
def clientNormFilterS (s : String) : String :=
  ⟨clientNormFilter s.data⟩

/-- The client-side comparison of a stored `board` metadata value with a
(normalized) filter value (`corpus_tools.py`, lines 800-814). -/
def boardValuesMatch (metadataValue filterValue : String) : Bool :=
  clientNormMetaS metadataValue = clientNormFilterS filterValue

/-! ### Character-level facts about the string primitives -/

/-- A character stripped by Python `strip()` has code at most 32. -/
theorem pyIsSpace_toNat {c : Char} (h : pyIsSpace c = true) : c.toNat ≤ 32 := by
  unfold pyIsSpace at h
  simp only [Bool.or_eq_true, decide_eq_true_eq] at h
  rcases h with ((((h | h) | h) | h) | h) | h <;> subst h <;> decide

/-- `asciiUpper` is the identity on characters outside `a`-`z`. -/
theorem asciiUpper_of_not_lower {c : Char} (h : isLowerAZ c = false) :
    asciiUpper c = c := by
  unfold asciiUpper
  simp [h]

/-- The image of a lowercase letter under `asciiUpper` lies in `A`-`Z`, hence
is not lowercase, not whitespace, and none of `-`, `.`, `' '`, `_`. -/
theorem asciiUpper_image (n : Nat) (h1 : 97 ≤ n) (h2 : n ≤ 122) :
    isLowerAZ (Char.ofNat (n - 32)) = false ∧
    pyIsSpace (Char.ofNat (n - 32)) = false ∧
    Char.ofNat (n - 32) ≠ '-' ∧ Char.ofNat (n - 32) ≠ '.' ∧
    Char.ofNat (n - 32) ≠ ' ' := by
  interval_cases n <;> decide

/-- `asciiUpper` never yields a lowercase letter. -/
theorem asciiUpper_not_lower (c : Char) : isLowerAZ (asciiUpper c) = false := by
  unfold asciiUpper
  split
  case isTrue h =>
    unfold isLowerAZ at h
    simp only [Bool.and_eq_true, decide_eq_true_eq] at h
    exact (asciiUpper_image c.toNat h.1 h.2).1
  case isFalse h => exact Bool.eq_false_iff.mpr h

/-- `asciiUpper` maps whitespace to itself and non-whitespace to
non-whitespace. -/
theorem pyIsSpace_asciiUpper (c : Char) : pyIsSpace (asciiUpper c) = pyIsSpace c := by
  unfold asciiUpper
  split
  case isTrue h =>
    unfold isLowerAZ at h
    simp only [Bool.and_eq_true, decide_eq_true_eq] at h
    rw [(asciiUpper_image c.toNat h.1 h.2).2.1]
    have hws : pyIsSpace c = false := by
      cases hc : pyIsSpace c
      · rfl
      · exact absurd (pyIsSpace_toNat hc) (by omega)
    rw [hws]
  case isFalse h => rfl

/-- `asciiUpper` produces `-`, `.` or a space only from that same character. -/
theorem asciiUpper_eq_special {c d : Char} (hd : d = '-' ∨ d = '.' ∨ d = ' ')
    (h : asciiUpper c = d) : c = d := by
  unfold asciiUpper at h
  split at h
  case isTrue hl =>
    unfold isLowerAZ at hl
    simp only [Bool.and_eq_true, decide_eq_true_eq] at hl
    obtain ⟨hne1, hne2, hne3⟩ :=
      (asciiUpper_image c.toNat hl.1 hl.2).2.2
    rcases hd with hd | hd | hd <;> subst hd
    · exact absurd h hne1
    · exact absurd h hne2
    · exact absurd h hne3
  case isFalse hl => exact h

/-! ### Membership lemmas: each pipeline stage only shrinks or relabels -/

theorem mem_lstrip {p : Char → Bool} {c : Char} : ∀ {l : List Char},
    c ∈ lstrip p l → c ∈ l
  | [], h => h
  | d :: rest, h => by
    unfold lstrip at h
    split at h
    · exact List.mem_cons_of_mem d (mem_lstrip h)
    · exact h

theorem mem_rstrip {p : Char → Bool} {c : Char} : ∀ {l : List Char},
    c ∈ rstrip p l → c ∈ l
  | [], h => h
  | d :: rest, h => by
    unfold rstrip at h
    simp only at h
    split at h
    · exact absurd h (List.not_mem_nil c)
    · rcases List.mem_cons.mp h with h | h
      · exact h ▸ List.mem_cons_self d rest
      · exact List.mem_cons_of_mem d (mem_rstrip h)

theorem mem_pyStrip {c : Char} {l : List Char} (h : c ∈ pyStrip l) : c ∈ l :=
  mem_lstrip (mem_rstrip h)

theorem mem_stripUnd {c : Char} {l : List Char} (h : c ∈ stripUnd l) : c ∈ l :=
  mem_lstrip (mem_rstrip h)

theorem mem_replaceChar {a b c : Char} {l : List Char}
    (h : c ∈ replaceChar a b l) : c = b ∨ (c ∈ l ∧ c ≠ a) := by
  unfold replaceChar at h
  obtain ⟨d, hd, hcd⟩ := List.mem_map.mp h
  by_cases hda : d = a
  · left
    simp [hda] at hcd
    exact hcd.symm
  · right
    simp [hda] at hcd
    exact ⟨hcd ▸ hd, hcd ▸ hda⟩

theorem mem_camelAux {p c : Char} : ∀ {l : List Char},
    c ∈ camelAux p l → c = '_' ∨ c ∈ l
  | [], h => absurd h (List.not_mem_nil c)
  | d :: rest, h => by
    unfold camelAux at h
    rcases List.mem_append.mp h with h | h
    · split at h
      · rcases List.mem_cons.mp h with h | h
        · exact Or.inl h
        · simp only [List.mem_singleton] at h
          exact Or.inr (h ▸ List.mem_cons_self d rest)
      · simp only [List.mem_singleton] at h
        exact Or.inr (h ▸ List.mem_cons_self d rest)
    · rcases mem_camelAux h with h | h
      · exact Or.inl h
      · exact Or.inr (List.mem_cons_of_mem d h)

theorem mem_camelSub {c : Char} {l : List Char} (h : c ∈ camelSub l) :
    c = '_' ∨ c ∈ l := by
  match l with
  | [] => exact absurd h (List.not_mem_nil c)
  | d :: rest =>
    unfold camelSub at h
    rcases List.mem_cons.mp h with h | h
    · exact Or.inr (h ▸ List.mem_cons_self d rest)
    · rcases mem_camelAux h with h | h
      · exact Or.inl h
      · exact Or.inr (List.mem_cons_of_mem d h)

theorem mem_collapseUnd {c : Char} : ∀ {l : List Char},
    c ∈ collapseUnd l → c ∈ l
  | [], h => h
  | [d], h => h
  | a :: b :: rest, h => by
    unfold collapseUnd at h
    split at h
    · exact List.mem_cons_of_mem a (mem_collapseUnd h)
    · rcases List.mem_cons.mp h with h | h
      · exact h ▸ List.mem_cons_self a (b :: rest)
      · exact List.mem_cons_of_mem a (mem_collapseUnd h)

/-! ### Shape predicates for normalized strings -/

/-- The first character (if any) does not satisfy `p`. -/
def noLeadB (p : Char → Bool) : List Char → Bool
  | [] => true
  | c :: _ => !(p c)

/-- The last character (if any) does not satisfy `p`. -/
def noTrailB (p : Char → Bool) : List Char → Bool
  | [] => true
  | [c] => !(p c)
  | _ :: b :: rest => noTrailB p (b :: rest)

/-- Every `A`-`Z` character of the list is preceded by `_`; `p` is the
character standing before the list. -/
def upperOkAuxB (p : Char) : List Char → Bool
  | [] => true
  | c :: rest => !(isAZ c && p ≠ '_') && upperOkAuxB c rest

/-- Every `A`-`Z` character at a non-initial position is preceded by `_`
(phrased with a virtual `_` in front, which frees the first character). -/
def upperOkB (l : List Char) : Bool := upperOkAuxB '_' l

/-- No two adjacent underscores. -/
def noAdjUndB : List Char → Bool
  | a :: b :: rest => !(a = '_' && b = '_') && noAdjUndB (b :: rest)
  | _ => true

/-! ### Identity lemmas: when a stage is a no-op -/

theorem lstrip_of_forall {p : Char → Bool} : ∀ {l : List Char},
    (∀ c ∈ l, p c = false) → lstrip p l = l
  | [], _ => rfl
  | c :: rest, h => by
    unfold lstrip
    rw [h c (List.mem_cons_self c rest)]
    simp

theorem rstrip_of_forall {p : Char → Bool} : ∀ {l : List Char},
    (∀ c ∈ l, p c = false) → rstrip p l = l
  | [], _ => rfl
  | c :: rest, h => by
    unfold rstrip
    rw [rstrip_of_forall fun d hd => h d (List.mem_cons_of_mem c hd)]
    rw [h c (List.mem_cons_self c rest)]
    simp

theorem lstrip_of_noLead {p : Char → Bool} {l : List Char}
    (h : noLeadB p l = true) : lstrip p l = l := by
  match l with
  | [] => rfl
  | c :: rest =>
    unfold noLeadB at h
    unfold lstrip
    simp only [Bool.not_eq_true'] at h
    rw [h]
    simp

theorem rstrip_of_noTrail {p : Char → Bool} : ∀ {l : List Char},
    noTrailB p l = true → rstrip p l = l
  | [], _ => rfl
  | [c], h => by
    unfold noTrailB at h
    unfold rstrip
    simp only [Bool.not_eq_true'] at h
    simp [rstrip, h]
  | a :: b :: rest, h => by
    unfold noTrailB at h
    have ih := rstrip_of_noTrail (l := b :: rest) h
    unfold rstrip
    rw [ih]
    simp

theorem replaceChar_of_forall {a b : Char} : ∀ {l : List Char},
    (∀ c ∈ l, c ≠ a) → replaceChar a b l = l
  | [], _ => rfl
  | c :: rest, h => by
    have ih := replaceChar_of_forall (a := a) (b := b)
      fun d hd => h d (List.mem_cons_of_mem c hd)
    unfold replaceChar at ih ⊢
    simp only [List.map_cons]
    rw [if_neg (h c (List.mem_cons_self c rest)), ih]

theorem map_asciiUpper_of_forall : ∀ {l : List Char},
    (∀ c ∈ l, isLowerAZ c = false) → l.map asciiUpper = l
  | [], _ => rfl
  | c :: rest, h => by
    simp only [List.map_cons]
    rw [asciiUpper_of_not_lower (h c (List.mem_cons_self c rest)),
      map_asciiUpper_of_forall fun d hd => h d (List.mem_cons_of_mem c hd)]

theorem camelAux_of_upperOkAux {p : Char} : ∀ {l : List Char},
    upperOkAuxB p l = true → camelAux p l = l
  | [], _ => rfl
  | c :: rest, h => by
    unfold upperOkAuxB at h
    simp only [Bool.and_eq_true, Bool.not_eq_true'] at h
    unfold camelAux
    simp only [h.1, Bool.false_eq_true, if_false, List.singleton_append,
      List.cons.injEq, true_and]
    exact camelAux_of_upperOkAux h.2

theorem camelSub_of_upperOk {l : List Char} (h : upperOkB l = true) :
    camelSub l = l := by
  match l with
  | [] => rfl
  | c :: rest =>
    unfold upperOkB upperOkAuxB at h
    simp only [Bool.and_eq_true, Bool.not_eq_true'] at h
    rw [show camelSub (c :: rest) = c :: camelAux c rest from rfl,
      camelAux_of_upperOkAux h.2]

theorem collapseUnd_of_noAdj : ∀ {l : List Char},
    noAdjUndB l = true → collapseUnd l = l
  | [], _ => rfl
  | [c], _ => rfl
  | a :: b :: rest, h => by
    unfold noAdjUndB at h
    simp only [Bool.and_eq_true, Bool.not_eq_true'] at h
    unfold collapseUnd
    simp only [h.1, Bool.false_eq_true, if_false]
    rw [collapseUnd_of_noAdj h.2]

/-! ### Unfolding equations (stated once, used by `rw`) -/

theorem lstrip_cons (p : Char → Bool) (c : Char) (l : List Char) :
    lstrip p (c :: l) = if p c then lstrip p l else c :: l := rfl

theorem rstrip_cons (p : Char → Bool) (c : Char) (l : List Char) :
    rstrip p (c :: l) =
      if rstrip p l = [] && p c then [] else c :: rstrip p l := rfl

theorem camelAux_cons (p c : Char) (l : List Char) :
    camelAux p (c :: l) =
      (if isAZ c && p ≠ '_' then ['_', c] else [c]) ++ camelAux c l := rfl

theorem collapseUnd_cons2 (a b : Char) (l : List Char) :
    collapseUnd (a :: b :: l) =
      if a = '_' && b = '_' then collapseUnd (b :: l)
      else a :: collapseUnd (b :: l) := rfl

theorem upperOkAuxB_cons (p c : Char) (l : List Char) :
    upperOkAuxB p (c :: l) =
      (!(isAZ c && p ≠ '_') && upperOkAuxB c l) := rfl

theorem noAdjUndB_cons2 (a b : Char) (l : List Char) :
    noAdjUndB (a :: b :: l) =
      (!(a = '_' && b = '_') && noAdjUndB (b :: l)) := rfl

theorem noTrailB_cons2 (p : Char → Bool) (a b : Char) (l : List Char) :
    noTrailB p (a :: b :: l) = noTrailB p (b :: l) := rfl

/-! ### Establishment lemmas: what each stage guarantees about its output -/

theorem upperOkAux_camelAux : ∀ (l : List Char) (p : Char),
    upperOkAuxB p (camelAux p l) = true
  | [], _ => rfl
  | c :: rest, p => by
    rw [camelAux_cons]
    split
    next hcond =>
      rw [List.cons_append, List.singleton_append, upperOkAuxB_cons,
        upperOkAuxB_cons]
      rw [(by decide : isAZ '_' = false)]
      simp only [Bool.false_and, Bool.not_false, Bool.true_and]
      rw [(by decide : decide ('_' ≠ '_') = false)]
      simp only [Bool.and_false, Bool.not_false, Bool.true_and]
      exact upperOkAux_camelAux rest c
    next hcond =>
      rw [List.singleton_append, upperOkAuxB_cons,
        Bool.eq_false_iff.mpr hcond]
      simp only [Bool.not_false, Bool.true_and]
      exact upperOkAux_camelAux rest c

theorem upperOk_camelSub (l : List Char) : upperOkB (camelSub l) = true := by
  match l with
  | [] => rfl
  | c :: rest =>
    rw [show camelSub (c :: rest) = c :: camelAux c rest from rfl]
    unfold upperOkB
    rw [upperOkAuxB_cons, (by decide : decide ('_' ≠ '_') = false)]
    simp only [Bool.and_false, Bool.not_false, Bool.true_and]
    exact upperOkAux_camelAux rest c

theorem noLead_lstrip (p : Char → Bool) : ∀ l : List Char,
    noLeadB p (lstrip p l) = true
  | [] => rfl
  | c :: rest => by
    rw [lstrip_cons]
    split
    next => exact noLead_lstrip p rest
    next hc =>
      show (!(p c)) = true
      rw [Bool.eq_false_iff.mpr hc]
      rfl

theorem noTrail_rstrip (p : Char → Bool) : ∀ l : List Char,
    noTrailB p (rstrip p l) = true
  | [] => rfl
  | c :: rest => by
    rw [rstrip_cons]
    split
    next => rfl
    next hc =>
      match hr : rstrip p rest with
      | [] =>
        rw [hr] at hc
        simp only [decide_eq_true_eq, Bool.and_eq_true, not_and,
          Bool.not_eq_true, forall_const] at hc
        show (!(p c)) = true
        rw [hc]
        rfl
      | x :: t =>
        rw [noTrailB_cons2, ← hr]
        exact noTrail_rstrip p rest

theorem noLead_rstrip {p q : Char → Bool} {l : List Char}
    (h : noLeadB p l = true) : noLeadB p (rstrip q l) = true := by
  match l with
  | [] => exact rfl
  | c :: rest =>
    rw [rstrip_cons]
    split
    next => rfl
    next => exact h

theorem collapseUnd_headTail : ∀ (rest : List Char) (b : Char),
    ∃ t, collapseUnd (b :: rest) = b :: t
  | [], b => ⟨[], rfl⟩
  | c :: rest, b => by
    obtain ⟨t, ht⟩ := collapseUnd_headTail rest c
    rw [collapseUnd_cons2]
    split
    next hb =>
      simp only [Bool.and_eq_true, decide_eq_true_eq] at hb
      rw [ht]
      exact ⟨t, by rw [hb.1, hb.2]⟩
    next => exact ⟨collapseUnd (c :: rest), rfl⟩

theorem noAdj_collapseUnd : ∀ l : List Char, noAdjUndB (collapseUnd l) = true := by
  intro l
  induction l using collapseUnd.induct with
  | case1 => exact rfl
  | case2 c => exact rfl
  | case3 a b rest hcond ih =>
    rw [collapseUnd_cons2, if_pos hcond]
    exact ih
  | case4 a b rest hcond ih =>
    rw [collapseUnd_cons2, if_neg hcond]
    obtain ⟨t, ht⟩ := collapseUnd_headTail rest b
    rw [ht, noAdjUndB_cons2]
    rw [Bool.eq_false_iff.mpr hcond]
    simp only [Bool.not_false, Bool.true_and]
    rw [← ht]
    exact ih

/-! ### Preservation lemmas: shape survives later stages -/

theorem upperOkAux_head_irrel {l : List Char} (p q : Char)
    (h : ∀ c, l.head? = some c → isAZ c = false) :
    upperOkAuxB p l = upperOkAuxB q l := by
  match l with
  | [] => rfl
  | c :: rest =>
    rw [upperOkAuxB_cons, upperOkAuxB_cons, h c rfl]
    simp

theorem upperOkAux_collapseUnd : ∀ (l : List Char) (p : Char),
    upperOkAuxB p l = true → upperOkAuxB p (collapseUnd l) = true := by
  intro l
  induction l using collapseUnd.induct with
  | case1 => exact fun _ h => h
  | case2 c => exact fun _ h => h
  | case3 a b rest hcond ih =>
    intro p h
    rw [collapseUnd_cons2, if_pos hcond]
    simp only [Bool.and_eq_true, decide_eq_true_eq] at hcond
    rw [upperOkAuxB_cons] at h
    simp only [Bool.and_eq_true] at h
    have h2 : upperOkAuxB '_' (b :: rest) = true := by rw [← hcond.1]; exact h.2
    have hres := ih '_' h2
    obtain ⟨t, ht⟩ := collapseUnd_headTail rest b
    rw [ht] at hres ⊢
    rw [upperOkAux_head_irrel p '_' fun c hc => by
      rw [show c = b from by injection hc with h; exact h.symm, hcond.2]; decide]
    exact hres
  | case4 a b rest hcond ih =>
    intro p h
    rw [collapseUnd_cons2, if_neg hcond]
    rw [upperOkAuxB_cons] at h ⊢
    simp only [Bool.and_eq_true] at h ⊢
    exact ⟨h.1, ih a h.2⟩

theorem upperOk_lstripUnd : ∀ {l : List Char},
    upperOkB l = true → upperOkB (lstrip isUnd l) = true := by
  intro l
  induction l with
  | nil => exact fun h => h
  | cons c rest ih =>
    intro h
    rw [lstrip_cons]
    split
    next hc =>
      unfold isUnd at hc
      simp only [decide_eq_true_eq] at hc
      unfold upperOkB at h
      rw [upperOkAuxB_cons] at h
      simp only [Bool.and_eq_true] at h
      exact ih (by unfold upperOkB; rw [← hc]; exact h.2)
    next hc => exact h

theorem upperOkAux_rstrip {q : Char → Bool} : ∀ (l : List Char) (p : Char),
    upperOkAuxB p l = true → upperOkAuxB p (rstrip q l) = true
  | [], _ => fun h => h
  | c :: rest, p => by
    intro h
    rw [rstrip_cons]
    split
    next => rfl
    next hc =>
      rw [upperOkAuxB_cons] at h ⊢
      simp only [Bool.and_eq_true] at h ⊢
      exact ⟨h.1, upperOkAux_rstrip rest c h.2⟩

theorem noAdj_tail {c : Char} {l : List Char}
    (h : noAdjUndB (c :: l) = true) : noAdjUndB l = true := by
  match l with
  | [] => rfl
  | b :: rest =>
    rw [noAdjUndB_cons2] at h
    simp only [Bool.and_eq_true] at h
    exact h.2

theorem noAdj_lstrip {p : Char → Bool} : ∀ {l : List Char},
    noAdjUndB l = true → noAdjUndB (lstrip p l) = true
  | [] => fun h => h
  | c :: rest => by
    intro h
    rw [lstrip_cons]
    split
    next => exact noAdj_lstrip (noAdj_tail h)
    next => exact h

theorem rstrip_cons_cases (p : Char → Bool) (c : Char) (l : List Char) :
    rstrip p (c :: l) = [] ∨ ∃ t, rstrip p (c :: l) = c :: t := by
  rw [rstrip_cons]
  split
  next => exact Or.inl rfl
  next => exact Or.inr ⟨rstrip p l, rfl⟩

theorem noAdj_rstrip {p : Char → Bool} : ∀ {l : List Char},
    noAdjUndB l = true → noAdjUndB (rstrip p l) = true
  | [] => fun h => h
  | c :: rest => by
    intro h
    rw [rstrip_cons]
    split
    next => rfl
    next hc =>
      match rest with
      | [] => rfl
      | b :: rest' =>
        rcases rstrip_cons_cases p b rest' with hr | ⟨t, ht⟩
        · rw [hr]
          rfl
        · rw [ht]
          have htail : noAdjUndB (b :: t) = true := by
            rw [← ht]
            exact noAdj_rstrip (noAdj_tail h)
          rw [noAdjUndB_cons2] at h ⊢
          simp only [Bool.and_eq_true] at h ⊢
          exact ⟨h.1, htail⟩

/-! ### The shape of a normalized board value -/

/-- A character that can appear in the output of `normalize_board` when the
input's whitespace characters are all plain spaces: not whitespace, not
lowercase, and none of the replaced separators. -/
def GoodChar (c : Char) : Prop :=
  pyIsSpace c = false ∧ isLowerAZ c = false ∧ c ≠ '-' ∧ c ≠ '.' ∧ c ≠ ' '

theorem goodChar_underscore : GoodChar '_' := by
  unfold GoodChar
  refine ⟨by decide, by decide, by decide, by decide, by decide⟩

/-- Every character of `normalize_board l` is a `GoodChar`, provided the
whitespace characters of `l` are all plain spaces. -/
theorem normalize_board_chars {l : List Char}
    (h : ∀ c ∈ l, pyIsSpace c = true → c = ' ') :
    ∀ c ∈ normalize_board l, GoodChar c := by
  intro c hc
  unfold normalize_board at hc
  have hc2 := mem_collapseUnd (mem_stripUnd hc)
  rcases mem_replaceChar hc2 with hcu | ⟨hcE, hcs⟩
  · exact hcu ▸ goodChar_underscore
  · obtain ⟨d, hdD, hcd⟩ := List.mem_map.mp hcE
    rcases mem_camelSub hdD with hdu | hdC
    · have hcu : c = '_' := by rw [← hcd, hdu]; decide
      exact hcu ▸ goodChar_underscore
    · rcases mem_replaceChar hdC with hdu | ⟨hdB, hdne1⟩
      · have hcu : c = '_' := by rw [← hcd, hdu]; decide
        exact hcu ▸ goodChar_underscore
      · rcases mem_replaceChar hdB with hdu | ⟨hdA, hdne2⟩
        · have hcu : c = '_' := by rw [← hcd, hdu]; decide
          exact hcu ▸ goodChar_underscore
        · subst hcd
          refine ⟨?_, asciiUpper_not_lower d, ?_, ?_, ?_⟩
          · cases hws : pyIsSpace (asciiUpper d)
            · rfl
            · rw [pyIsSpace_asciiUpper] at hws
              have hd := h d (mem_pyStrip hdA) hws
              exact absurd (by rw [hd]; decide : asciiUpper d = ' ') hcs
          · intro hcon
            exact hdne2 (asciiUpper_eq_special (Or.inl rfl) hcon)
          · intro hcon
            exact hdne1 (asciiUpper_eq_special (Or.inr (Or.inl rfl)) hcon)
          · intro hcon
            exact hcs hcon

/-- On a list of `GoodChar`s, `normalize_board` degenerates to camelCase
splitting followed by underscore collapsing and stripping: the strip,
separator-replacement and uppercase stages are all identities. -/
theorem normalize_board_of_good {X : List Char} (hX : ∀ c ∈ X, GoodChar c) :
    normalize_board X = stripUnd (collapseUnd (camelSub X)) := by
  unfold normalize_board pyStrip
  rw [lstrip_of_forall fun c hc => (hX c hc).1,
    rstrip_of_forall fun c hc => (hX c hc).1,
    replaceChar_of_forall fun c hc => (hX c hc).2.2.1,
    replaceChar_of_forall fun c hc => (hX c hc).2.2.2.1]
  have hcamel : ∀ c ∈ camelSub X, c = '_' ∨ c ∈ X := fun c hc => mem_camelSub hc
  rw [map_asciiUpper_of_forall fun c hc => by
    rcases hcamel c hc with hcu | hcX
    · rw [hcu]; decide
    · exact (hX c hcX).2.1]
  rw [replaceChar_of_forall fun c hc => by
    rcases hcamel c hc with hcu | hcX
    · rw [hcu]; decide
    · exact (hX c hcX).2.2.2.2]

/-- The output of the degenerate pipeline again consists of `GoodChar`s. -/
theorem good_of_camel_pipeline {X : List Char} (hX : ∀ c ∈ X, GoodChar c) :
    ∀ c ∈ stripUnd (collapseUnd (camelSub X)), GoodChar c := by
  intro c hc
  rcases mem_camelSub (mem_collapseUnd (mem_stripUnd hc)) with hcu | hcX
  · exact hcu ▸ goodChar_underscore
  · exact hX c hcX

/-- `stripUnd (collapseUnd (camelSub X))` is a fixed point of
`normalize_board` whenever `X` consists of `GoodChar`s. -/
theorem normalize_board_fix {X : List Char} (hX : ∀ c ∈ X, GoodChar c) :
    normalize_board (stripUnd (collapseUnd (camelSub X))) =
      stripUnd (collapseUnd (camelSub X)) := by
  rw [normalize_board_of_good (good_of_camel_pipeline hX)]
  have hupper : upperOkB (stripUnd (collapseUnd (camelSub X))) = true := by
    unfold stripUnd upperOkB
    exact upperOkAux_rstrip _ _
      (upperOk_lstripUnd (upperOkAux_collapseUnd _ _ (upperOk_camelSub X)))
  rw [camelSub_of_upperOk hupper]
  have hadj : noAdjUndB (stripUnd (collapseUnd (camelSub X))) = true := by
    unfold stripUnd
    exact noAdj_rstrip (noAdj_lstrip (noAdj_collapseUnd (camelSub X)))
  rw [collapseUnd_of_noAdj hadj]
  show stripUnd (rstrip isUnd (lstrip isUnd (collapseUnd (camelSub X)))) = _
  unfold stripUnd
  rw [lstrip_of_noLead (noLead_rstrip (noLead_lstrip isUnd _)),
    rstrip_of_noTrail (noTrail_rstrip isUnd _)]

/-- `normalize_board` stabilizes after two applications, for inputs whose
whitespace characters are all plain spaces. -/
theorem normalize_board_triple (l : List Char)
    (h : ∀ c ∈ l, pyIsSpace c = true → c = ' ') :
    normalize_board (normalize_board (normalize_board l)) =
      normalize_board (normalize_board l) := by
  have hX := normalize_board_chars h
  rw [normalize_board_of_good hX]
  exact normalize_board_fix hX

end Rag

namespace Rag

set_option maxRecDepth 4096

example : normalizeBoardS "TamilNaduBoard" = "TAMIL_NADU_BOARD" := by decide
example : normalizeBoardS "Tamil Nadu Board" = "TAMIL_NADU_BOARD" := by decide
example : vmNormalizeBoardS "Tamil Nadu Board" = "TAMIL_NADU_BOARD" := by decide
example : normalizeBoardS "ab" = "AB" := by decide
example : normalizeBoardS "AB" = "A_B" := by decide
example : clientNormMetaS "TAMIL_NADU_BOARD" = "T_A_M_I_L_N_A_D_U_B_O_A_R_D" := by decide
example : clientNormFilterS "TAMIL_NADU_BOARD" = "TAMIL_NADU_BOARD" := by decide
example : boardValuesMatch (vmNormalizeBoardS "Tamil Nadu Board") (normalizeBoardS "TamilNaduBoard") = false := by decide
example : boardValuesMatch (vmNormalizeBoardS "Tamil Nadu Board") (normalizeBoardS "TAMIL_NADU_BOARD") = true := by decide

/-! ### Python values and dictionaries -/

/-- A Python value as the metadata machinery sees it: a string, an integer, or
`None`. -/
inductive PyVal where
  | str : String → PyVal
  | int : Int → PyVal
  | nil : PyVal
  deriving DecidableEq

/-- Python truthiness for the modelled values. -/
def PyVal.truthy : PyVal → Bool
  | .str s => !(s = "")
  | .int n => !(n = 0)
  | .nil => false

/-- Python `a or b`: the first operand when truthy, otherwise the second. -/
def pyOr (a b : PyVal) : PyVal := if a.truthy then a else b

/-- The Python type name of a value, as `type(value).__name__` renders it. -/
def PyVal.typeName : PyVal → String
  | .str _ => "str"
  | .int _ => "int"
  | .nil => "NoneType"

/-- A Python dict in insertion order (keys unique in any dict the source can
build). -/
def PyDict := List (String × PyVal)

/-- `d.get(k)` returning `None` when the key is absent. -/
def dictGet (d : List (String × PyVal)) (k : String) : PyVal :=
  match d.find? (fun kv => kv.1 = k) with
  | some kv => kv.2
  | none => PyVal.nil

/-- `k in d`. -/
def dictHas (d : List (String × PyVal)) (k : String) : Bool :=
  (d.find? (fun kv => kv.1 = k)).isSome

/-- `str.strip()` on `String`. -/
def pyStripS (s : String) : String := ⟨pyStrip s.data⟩

/-- `str.strip().lower()` on `String`, the case-insensitive comparison form
used for non-board fields and display names. -/
def pyLowerStrip (s : String) : String := ⟨(pyStrip s.data).map asciiLower⟩

/-! ### `metadata_schema.py`: schema constants and `validate_metadata` -/

/-- The required metadata fields, in the iteration order of the source dict
(`metadata_schema.py`, lines 14-18); all of type `str`. -/
def REQUIRED_METADATA_FIELDS : List String := ["board", "grade", "subject"]

/-- The optional metadata fields, in source order (lines 21-30); all `str`. -/
def OPTIONAL_METADATA_FIELDS : List String :=
  ["term", "chapter", "chapter_number", "publisher", "edition", "language",
   "content_type", "difficulty"]

/-- Allowed values of the `content_type` enum (line 33). -/
def ALLOWED_CONTENT_TYPES : List String :=
  ["theory", "exercises", "solutions", "examples"]

/-- Allowed values of the `difficulty` enum (line 34). -/
def ALLOWED_DIFFICULTY_LEVELS : List String := ["basic", "medium", "advanced"]

/-- Python list repr of the content types, used inside an error message. -/
def contentTypesRepr : String :=
  "['theory', 'exercises', 'solutions', 'examples']"

/-- Python list repr of the difficulty levels, used inside an error message. -/
def difficultyLevelsRepr : String := "['basic', 'medium', 'advanced']"

/-- The result dictionary of `validate_metadata`. -/
structure ValidationResult where
  valid : Bool
  errors : List String
  warnings : List String
  normalized : Option (List (String × PyVal))
  deriving DecidableEq

/-- One step of the required-fields loop of `validate_metadata`
(`metadata_schema.py`, lines 59-89), acting on the
(errors, warnings, normalized) accumulator. -/
def requiredFieldStep (metadata : List (String × PyVal))
    (acc : List String × List String × List (String × PyVal)) (field : String) :
    List String × List String × List (String × PyVal) :=
  let (errors, warnings, normalized) := acc
  if !dictHas metadata field then
    (errors ++ ["Missing required field: '" ++ field ++ "'"], warnings, normalized)
  else
    match dictGet metadata field with
    | PyVal.str v =>
      if field = "board" then
        let nv := vmNormalizeBoardS v
        let warnings := if nv ≠ v then
            warnings ++ ["Board name normalized: '" ++ v ++ "' -> '" ++ nv ++ "'"]
          else warnings
        (errors, warnings, normalized ++ [(field, PyVal.str nv)])
      else if field = "grade" then
        let nv := pyStripS v
        let warnings := if nv ≠ v then
            warnings ++ ["Grade normalized to string: '" ++ v ++ "' -> '" ++ nv ++ "'"]
          else warnings
        (errors, warnings, normalized ++ [(field, PyVal.str nv)])
      else
        (errors, warnings, normalized ++ [(field, PyVal.str (pyStripS v))])
    | v =>
      (errors ++ ["Field '" ++ field ++ "' must be of type str, got " ++ v.typeName],
        warnings, normalized)

/-- One step of the optional-fields loop (`metadata_schema.py`, lines 92-116).
All optional fields have declared type `str`, so the non-enum normalization
branch always strips. -/
def optionalFieldStep (metadata : List (String × PyVal)) (strict : Bool)
    (acc : List String × List String × List (String × PyVal)) (field : String) :
    List String × List String × List (String × PyVal) :=
  let (errors, warnings, normalized) := acc
  if dictHas metadata field then
    match dictGet metadata field with
    | PyVal.str v =>
      let errors := if field = "content_type" && strict &&
          !(ALLOWED_CONTENT_TYPES.contains v) then
          errors ++ ["content_type must be one of " ++ contentTypesRepr ++
            ", got '" ++ v ++ "'"]
        else errors
      let errors := if field = "difficulty" && strict &&
          !(ALLOWED_DIFFICULTY_LEVELS.contains v) then
          errors ++ ["difficulty must be one of " ++ difficultyLevelsRepr ++
            ", got '" ++ v ++ "'"]
        else errors
      let nv := pyStripS v
      let warnings := if nv ≠ v then
          warnings ++ ["Field '" ++ field ++ "' normalized: '" ++ v ++ "' -> '" ++ nv ++ "'"]
        else warnings
      (errors, warnings, normalized ++ [(field, PyVal.str nv)])
    | v =>
      (errors ++ ["Optional field '" ++ field ++ "' must be of type str, got " ++
        v.typeName], warnings, normalized)
  else acc

/-- The error/warning/normalized accumulator of `validate_metadata` after the
required-fields loop, the optional-fields loop, the unknown-fields warning and
the lowercase-key warnings (`metadata_schema.py`, lines 55-127). The
unknown-fields warning lists the offending keys; the source renders a Python
set there, whose order is unspecified, so this model lists them in insertion
order. -/
def validateCore (metadata : List (String × PyVal)) (strict : Bool) :
    List String × List String × List (String × PyVal) :=
  let acc := REQUIRED_METADATA_FIELDS.foldl (requiredFieldStep metadata) ([], [], [])
  let acc := OPTIONAL_METADATA_FIELDS.foldl (optionalFieldStep metadata strict) acc
  let (errors, warnings, normalized) := acc
  let allowed := REQUIRED_METADATA_FIELDS ++ OPTIONAL_METADATA_FIELDS
  let unknown := (metadata.map Prod.fst).filter (fun k => !allowed.contains k)
  let warnings := if unknown ≠ [] then
      warnings ++ ["Unknown fields found (will be ignored): " ++
        String.intercalate ", " unknown]
    else warnings
  let warnings := warnings ++ (metadata.map Prod.fst).filterMap fun k =>
    let lk : String := ⟨k.data.map asciiLower⟩
    if k ≠ lk then
      some ("Key '" ++ k ++ "' should be lowercase (use '" ++ lk ++ "')")
    else none
  (errors, warnings, normalized)

/-- `validate_metadata` (`metadata_schema.py`, lines 40-134): `valid` is
emptiness of `errors`, and `normalized` is populated exactly when `errors` is
empty. -/
def validate_metadata (metadata : List (String × PyVal)) (strict : Bool) :
    ValidationResult :=
  let (errors, warnings, normalized) := validateCore metadata strict
  ⟨decide (errors.length = 0), errors, warnings,
    if errors.length = 0 then some normalized else none⟩

/-! ### `create_metadata_filter` over a whole criteria dictionary -/

/-- `create_metadata_filter` (`metadata_schema.py`, lines 177-214):
unrecognized fields are dropped; `board` goes through `normalize_board`; all
other recognized fields are stripped. Criteria values are modelled as the
strings `str(value)` the source computes. -/
def create_metadata_filter (criteria : List (String × String)) :
    List (String × String) :=
  criteria.foldl (fun acc kv =>
    if REQUIRED_METADATA_FIELDS.contains kv.1 ||
        OPTIONAL_METADATA_FIELDS.contains kv.1 then
      if kv.1 = "board" then acc ++ [(kv.1, normalizeBoardS kv.2)]
      else acc ++ [(kv.1, pyStripS kv.2)]
    else acc) []

/-! ### The retrieval-service response object -/

/-- One candidate context returned by `rag.retrieval_query`. Each `Option`
models the presence of the corresponding duck-typed attribute
(`hasattr(context, ...)`); the four page attributes are the ones the source
probes, and `metadata` stands for the `context.metadata` / `rag_metadata`
mapping in its dictionary form. -/
structure RagContext where
  text : Option String
  source_uri : Option String
  relevance_score : Option Int
  page_number : Option PyVal
  page : Option PyVal
  page_num : Option PyVal
  pageNumber : Option PyVal
  metadata : Option (List (String × PyVal))
  deriving DecidableEq

/-- The `hasattr` if/elif chain over the four page attributes
(`corpus_tools.py`, lines 689-696): the first PRESENT attribute wins, even
when its value is `None`. -/
def attrPage (ctx : RagContext) : PyVal :=
  match ctx.page_number with
  | some v => v
  | none =>
    match ctx.page with
    | some v => v
    | none =>
      match ctx.page_num with
      | some v => v
      | none =>
        match ctx.pageNumber with
        | some v => v
        | none => PyVal.nil

/-- The `context.__dict__` re-probe (`corpus_tools.py`, lines 699-704): a
Python `or` chain over the same four keys, which skips falsy values (`None`,
`0`) rather than absent ones. -/
def dictAttrPage (ctx : RagContext) : PyVal :=
  pyOr (pyOr (pyOr (ctx.page_number.getD PyVal.nil) (ctx.page.getD PyVal.nil))
    (ctx.page_num.getD PyVal.nil)) (ctx.pageNumber.getD PyVal.nil)

/-- The metadata-dict page probe (`corpus_tools.py`, line 720): a Python `or`
chain over `page_number`, `page`, `page_num`. -/
def metaPage (md : List (String × PyVal)) : PyVal :=
  pyOr (pyOr (dictGet md "page_number") (dictGet md "page")) (dictGet md "page_num")

/-- The whole structured stage of page recovery: direct attributes, then the
`__dict__` re-probe, then the metadata mapping (only when the metadata is
present and truthy), each tried only while the page is still `None`
(`corpus_tools.py`, lines 686-731). -/
def structuredPage (ctx : RagContext) : PyVal :=
  let p1 := attrPage ctx
  let p2 := if p1 = PyVal.nil then dictAttrPage ctx else p1
  if p2 = PyVal.nil then
    match ctx.metadata with
    | some md => if md ≠ [] then metaPage md else PyVal.nil
    | none => PyVal.nil
  else p2

/-! ### Page extraction from the source URI -/

/-- Does `l` start with `pat`? -/
def beginsWith : List Char → List Char → Bool
  | _, [] => true
  | [], _ :: _ => false
  | c :: cs, m :: ms => c = m && beginsWith cs ms

/-- The part of `l` before the first occurrence of `pat` (all of `l` when
`pat` does not occur): `l.split(pat)[0]`. -/
def uptoMarker (pat : List Char) : List Char → List Char
  | [] => []
  | c :: cs => if beginsWith (c :: cs) pat then [] else c :: uptoMarker pat cs

/-- The part of `l` after the first occurrence of the nonempty `pat`, or
`none` when `pat` does not occur. -/
def afterMarker (pat : List Char) : List Char → Option (List Char)
  | [] => none
  | c :: cs =>
    if beginsWith (c :: cs) pat then some (cs.drop (pat.length - 1))
    else afterMarker pat cs

/-- `l.split(pat)[1]` guarded by `pat in l`: the text between the first
occurrence of `pat` and the next one. -/
def splitPart1 (pat l : List Char) : Option (List Char) :=
  (afterMarker pat l).map (uptoMarker pat)

/-- The digits of `l` as a number, or `none` when `l` is empty or not all
digits. -/
def digitsToNat (l : List Char) : Option Nat :=
  if l = [] || !l.all isDigitC then none
  else some (l.foldl (fun a c => a * 10 + (c.toNat - 48)) 0)

/-- Python `int(s)` on the strings the source feeds it: optional surrounding
whitespace, an optional sign, then decimal digits; anything else raises, which
the source turns into "no page". -/
def pyIntParse (l : List Char) : Option Int :=
  match pyStrip l with
  | '-' :: ds => (digitsToNat ds).map (fun n => -(n : Int))
  | '+' :: ds => (digitsToNat ds).map (fun n => (n : Int))
  | ds => (digitsToNat ds).map (fun n => (n : Int))

/-- Page recovery from a `#page=N` fragment of the source URI
(`corpus_tools.py`, lines 740-748):
`int(source_uri.split("#page=")[1].split("&")[0])` guarded by
`"#page=" in source_uri`, with a failed parse swallowed. -/
def uriPage (uri : String) : Option Int :=
  match splitPart1 "#page=".data uri.data with
  | none => none
  | some part => pyIntParse (uptoMarker ['&'] part)

/-! ### Page extraction from the passage text

The six patterns of `corpus_tools.py`, lines 755-762, tried in order with
`re.search(..., re.IGNORECASE)`; for each pattern the scanner returns the
match at the leftmost starting position. The patterns are simple enough that
greedy matching with a follow-up check is exact. -/

/-- Case-insensitive literal match: consume `pat` (given lowercase). -/
def eatLit (pat : List Char) (l : List Char) : Option (List Char) :=
  match pat, l with
  | [], rest => some rest
  | _ :: _, [] => none
  | a :: as, c :: cs => if asciiLower c = a then eatLit as cs else none

/-- `\s+`: at least one whitespace character, consumed maximally. -/
def eatWs1 (l : List Char) : Option (List Char) :=
  match l with
  | c :: cs => if pyIsSpace c then some (cs.dropWhile pyIsSpace) else none
  | [] => none

/-- `(\d+)`: a maximal nonempty digit run and its value. -/
def eatDigits (l : List Char) : Option (Nat × List Char) :=
  let ds := l.takeWhile isDigitC
  if ds.isEmpty then none
  else some (ds.foldl (fun a c => a * 10 + (c.toNat - 48)) 0, l.dropWhile isDigitC)

/-- `\b` after a digit run: the next character is not a word character. -/
def nonWordNext : List Char → Bool
  | [] => true
  | c :: _ => !isWordC c

/-- `\bpage\s+(\d+)\b` at one position; `prevWord` tells whether the character
before this position is a word character (for the leading `\b`). -/
def patPage (prevWord : Bool) (l : List Char) : Option Nat :=
  if prevWord then none else
  match eatLit "page".data l with
  | none => none
  | some l1 =>
    match eatWs1 l1 with
    | none => none
    | some l2 =>
      match eatDigits l2 with
      | none => none
      | some (n, l3) => if nonWordNext l3 then some n else none

/-- `\bp\.\s*(\d+)\b` at one position. -/
def patPdot (prevWord : Bool) (l : List Char) : Option Nat :=
  if prevWord then none else
  match eatLit "p.".data l with
  | none => none
  | some l1 =>
    match eatDigits (l1.dropWhile pyIsSpace) with
    | none => none
    | some (n, l3) => if nonWordNext l3 then some n else none

/-- `\bpg\.?\s*(\d+)\b` at one position. -/
def patPg (prevWord : Bool) (l : List Char) : Option Nat :=
  if prevWord then none else
  match eatLit "pg".data l with
  | none => none
  | some l1 =>
    let l2 := match l1 with
      | '.' :: rest => rest
      | _ => l1
    match eatDigits (l2.dropWhile pyIsSpace) with
    | none => none
    | some (n, l3) => if nonWordNext l3 then some n else none

/-- `\bpage\s*:\s*(\d+)\b` at one position. -/
def patPageColon (prevWord : Bool) (l : List Char) : Option Nat :=
  if prevWord then none else
  match eatLit "page".data l with
  | none => none
  | some l1 =>
    match l1.dropWhile pyIsSpace with
    | ':' :: l2 =>
      match eatDigits (l2.dropWhile pyIsSpace) with
      | none => none
      | some (n, l3) => if nonWordNext l3 then some n else none
    | _ => none

/-- `\(page\s+(\d+)\)` at one position (no word boundaries). -/
def patParen (_prevWord : Bool) (l : List Char) : Option Nat :=
  match eatLit "(page".data l with
  | none => none
  | some l1 =>
    match eatWs1 l1 with
    | none => none
    | some l2 =>
      match eatDigits l2 with
      | none => none
      | some (n, l3) =>
        match l3 with
        | ')' :: _ => some n
        | _ => none

/-- `\[page\s+(\d+)\]` at one position (no word boundaries). -/
def patBracket (_prevWord : Bool) (l : List Char) : Option Nat :=
  match eatLit "[page".data l with
  | none => none
  | some l1 =>
    match eatWs1 l1 with
    | none => none
    | some l2 =>
      match eatDigits l2 with
      | none => none
      | some (n, l3) =>
        match l3 with
        | ']' :: _ => some n
        | _ => none

/-- `re.search`: try the pattern at each position from the left, tracking
whether the previous character is a word character. -/
def scanPat (pat : Bool → List Char → Option Nat) : Bool → List Char → Option Nat
  | _, [] => none
  | prevWord, c :: cs =>
    match pat prevWord (c :: cs) with
    | some n => some n
    | none => scanPat pat (isWordC c) cs

/-- Search one pattern in a string from the start. -/
def findPat (pat : Bool → List Char → Option Nat) (s : String) : Option Nat :=
  scanPat pat false s.data

/-- The text heuristic of page recovery (`corpus_tools.py`, lines 752-771):
the six patterns tried in order, the first one that matches anywhere wins. -/
def textPage (s : String) : Option Nat :=
  match findPat patPage s with
  | some n => some n
  | none =>
    match findPat patPdot s with
    | some n => some n
    | none =>
      match findPat patPg s with
      | some n => some n
      | none =>
        match findPat patPageColon s with
        | some n => some n
        | none =>
          match findPat patParen s with
          | some n => some n
          | none => findPat patBracket s

example : textPage "see page 45 for details" = some 45 := by decide
example : textPage "Page: 12" = some 12 := by decide
example : textPage "p. 7" = some 7 := by decide
example : textPage "pg5" = some 5 := by decide
example : textPage "(page 3)" = some 3 := by decide
example : textPage "rampage 9" = none := by decide
example : textPage "on page 12a" = none := by decide
example : textPage "pg. 88 end" = some 88 := by decide
example : textPage "[page 6]" = some 6 := by decide
example : textPage "PAGE\t\t19." = some 19 := by decide
example : textPage "a p.33" = some 33 := by decide
example : textPage "xp.33" = none := by decide
example : textPage "page  007" = some 7 := by decide
example : textPage "page :  5" = some 5 := by decide
example : textPage "(page3)" = none := by decide
example : textPage "[page 4] page 9" = some 4 := by decide
example : uriPage "gs://b/f.pdf#page=12" = some 12 := by decide
example : uriPage "x#page=12&y=3" = some 12 := by decide
example : uriPage "x#page=12#page=9" = some 12 := by decide
example : uriPage "x#page=abc" = none := by decide
example : uriPage "x#page=" = none := by decide
example : uriPage "x#page= 12 " = some 12 := by decide
example : uriPage "x#page=+7" = some 7 := by decide
example : uriPage "gs://b/unit3.pdf" = none := by decide

/-! ### `query_rag_corpus` -/

/-- Modelled from the spec: `RAG_DEFAULT_TOP_K` lives in `rag/config.py`,
which is not part of the sources; the spec fixes the single-collection
default top_k at 10. -/
def RAG_DEFAULT_TOP_K : Nat := 10

/-- Modelled from the spec: `RAG_DEFAULT_SEARCH_TOP_K` lives in
`rag/config.py`, which is not part of the sources; the spec fixes the
per-collection default top_k of the multi-collection search at 5. -/
def RAG_DEFAULT_SEARCH_TOP_K : Nat := 5

/-- One entry of the `results` list built by `query_rag_corpus`
(`corpus_tools.py`, lines 676-779): the result dictionary, whose optional
keys are `Option`s, including the `corpus_id` / `corpus_name` / `citation`
keys added later by `search_all_corpora`. The `debug_info` key is omitted. -/
structure QueryResultItem where
  text : String
  source_uri : Option String
  relevance_score : Option Int
  metadata : Option (List (String × PyVal))
  page_number : Option PyVal
  corpus_id : Option String
  corpus_name : Option String
  citation : Option String
  deriving DecidableEq

/-- The URI stage of page recovery, guarded by the truthiness of
`result.get("source_uri")` (`corpus_tools.py`, line 740). -/
def uriStagePage (uri : Option String) : PyVal :=
  match uri with
  | some u =>
    if u ≠ "" then
      match uriPage u with
      | some n => PyVal.int n
      | none => PyVal.nil
    else PyVal.nil
  | none => PyVal.nil

/-- The text stage of page recovery, guarded by the truthiness of
`result.get("text")` (`corpus_tools.py`, line 752). -/
def textStagePage (text : String) : PyVal :=
  if text ≠ "" then
    match textPage text with
    | some n => PyVal.int n
    | none => PyVal.nil
  else PyVal.nil

/-- Building one result dictionary from one context (`corpus_tools.py`,
lines 676-779): text/uri/score copied, metadata stored when present and
truthy, and the page number recovered by the structured stage, then the URI
fragment, then the text patterns — each stage entered only while the page is
still `None`. -/
def processContext (ctx : RagContext) : QueryResultItem :=
  let text := ctx.text.getD ""
  let md : Option (List (String × PyVal)) :=
    match ctx.metadata with
    | some m => if m ≠ [] then some m else none
    | none => none
  let p := structuredPage ctx
  let p := if p = PyVal.nil then uriStagePage ctx.source_uri else p
  let p := if p = PyVal.nil then textStagePage text else p
  { text := text
    source_uri := ctx.source_uri
    relevance_score := ctx.relevance_score
    metadata := md
    page_number := if p = PyVal.nil then none else some p
    corpus_id := none
    corpus_name := none
    citation := none }

/-- Comparison of one stored metadata value against one (already normalized)
filter value (`corpus_tools.py`, lines 795-822): board values go through the
two client-side normalizations, other string pairs compare case-insensitively
after stripping, and a non-string stored value never equals the string filter
value. -/
def fieldMatches (key : String) (metadataValue : PyVal) (filterValue : String) :
    Bool :=
  match metadataValue with
  | PyVal.str s =>
    if key = "board" then boardValuesMatch s filterValue
    else pyLowerStrip s = pyLowerStrip filterValue
  | _ => false

/-- The client-side inclusion test of one result against the normalized
filter (`corpus_tools.py`, lines 781-826): a result with no (or empty)
metadata is dropped; otherwise every filter entry must be present and match. -/
def keepsItem (nf : List (String × String)) (item : QueryResultItem) : Bool :=
  match item.metadata with
  | none => false
  | some md =>
    if md.isEmpty then false
    else nf.all fun kv => dictHas md kv.1 && fieldMatches kv.1 (dictGet md kv.1) kv.2

/-- `normalized_filter` (`corpus_tools.py`, lines 630-632): computed only when
the given `metadata_filter` is truthy. -/
def normalizedFilterOf (mf : Option (List (String × String))) :
    Option (List (String × String)) :=
  match mf with
  | some m => if m.isEmpty then none else some (create_metadata_filter m)
  | none => none

/-- Python truthiness of `normalized_filter`: present and nonempty. -/
def filterTruthy (nf : Option (List (String × String))) : Bool :=
  match nf with
  | some f => !f.isEmpty
  | none => false

/-- The `top_k` passed to `rag.RagRetrievalConfig` (`corpus_tools.py`, lines
651 and 656): doubled exactly when the normalized filter is truthy. -/
def requestedTopK (top_k : Nat) (nf : Option (List (String × String))) : Nat :=
  if filterTruthy nf then top_k * 2 else top_k

/-- The context loop of `query_rag_corpus` (`corpus_tools.py`, lines 675-833):
each context is processed; when the normalized filter is truthy,
non-matching results are skipped and the loop breaks as soon as `top_k`
results are kept. -/
def processLoop (nf : Option (List (String × String))) (top_k : Nat)
    (acc : List QueryResultItem) : List RagContext → List QueryResultItem
  | [] => acc
  | ctx :: rest =>
    let item := processContext ctx
    match nf with
    | some f =>
      if f.isEmpty then processLoop nf top_k (acc ++ [item]) rest
      else if keepsItem f item then
        let acc2 := acc ++ [item]
        if top_k ≤ acc2.length then acc2 else processLoop nf top_k acc2 rest
      else processLoop nf top_k acc rest
    | none => processLoop nf top_k (acc ++ [item]) rest

/-- Whether at least two kept results share a source URI, counting by the
`source_uri` value as the source does (`corpus_tools.py`, lines 838-845). -/
def hasDupUri (results : List QueryResultItem) : Bool :=
  let uris := results.map (fun r => r.source_uri)
  uris.any fun u => 2 ≤ (uris.filter (fun v => v = u)).length

/-- The note text of `corpus_tools.py`, line 846. -/
def sameFileNote : String :=
  " Note: Multiple chunks retrieved from the same document(s) - this is normal as documents are split into chunks for better search."

/-- The result dictionary of `query_rag_corpus`: the success shape carries
`results`/`count`/`note`, the error shape carries `error_message`; both carry
`status` and `message` (message text abbreviated: the filter echo appended by
the source is not reproduced). -/
structure QueryResponse where
  status : String
  corpus_id : Option String
  results : Option (List QueryResultItem)
  count : Option Nat
  error_message : Option String
  message : String
  note : Option String
  deriving DecidableEq

/-- `query_rag_corpus` (`corpus_tools.py`, lines 597-866). The retrieval call
is a parameter taking the requested `top_k` and either returning the contexts
or failing like a raised exception; the whole body runs inside `try/except`,
so a failure becomes a `status="error"` dictionary. The
`vector_distance_threshold` is only forwarded to the service and is omitted. -/
def query_rag_corpus (corpus_id : String) (query_text : String)
    (top_k : Option Nat) (metadata_filter : Option (List (String × String)))
    (service : Nat → Except String (List RagContext)) : QueryResponse :=
  let top_k := top_k.getD RAG_DEFAULT_TOP_K
  let nf := normalizedFilterOf metadata_filter
  match service (requestedTopK top_k nf) with
  | Except.error e =>
    ⟨"error", some corpus_id, none, none, some e,
      "Failed to query corpus: " ++ e, none⟩
  | Except.ok contexts =>
    let results := processLoop nf top_k [] contexts
    let note := if 1 < results.length && hasDupUri results then some sameFileNote
      else none
    ⟨"success", some corpus_id, some results, some results.length, none,
      "Found " ++ toString results.length ++ " results for query: '" ++
        query_text ++ "'", note⟩

/-! ### `search_all_corpora` -/

/-- One corpus as `list_rag_corpora` reports it: its id and display name
(`corpus_tools.py`, lines 192-200); the other fields are unused here. -/
structure CorpusInfo where
  id : String
  display_name : Option String
  deriving DecidableEq

/-- `corpus.get("display_name", corpus_id)` (`corpus_tools.py`, line 920). -/
def corpusDisplayName (c : CorpusInfo) : String := c.display_name.getD c.id

/-- `source_path.split("/")[-1]`: the characters after the last slash. -/
def afterLastSlash (l : List Char) : List Char :=
  l.foldl (fun acc c => if c = '/' then [] else acc ++ [c]) []

/-- The filename rendered into a citation (`corpus_tools.py`, lines 944-948):
last path segment of the URI, with any `#` fragment stripped. -/
def fileNameOf (uri : String) : String :=
  ⟨uptoMarker ['#'] (afterLastSlash uri.data)⟩

/-- f-string rendering of a recovered page value. -/
def pyValStr : PyVal → String
  | PyVal.str s => s
  | PyVal.int n => toString n
  | PyVal.nil => "None"

/-- The citation attached to one kept result (`corpus_tools.py`, lines
936-953): `[Source: <name> (<id>)]`, then ` File: <filename>` when the result
has a truthy source URI, then ` Page: <n>` when it has a page number; the
corpus id and name are also stored on the result. -/
def annotateItem (corpus_name corpus_id : String) (item : QueryResultItem) :
    QueryResultItem :=
  let citation := "[Source: " ++ corpus_name ++ " (" ++ corpus_id ++ ")]"
  let citation :=
    match item.source_uri with
    | some uri => if uri ≠ "" then citation ++ " File: " ++ fileNameOf uri
      else citation
    | none => citation
  let citation :=
    match item.page_number with
    | some v => if v ≠ PyVal.nil then citation ++ " Page: " ++ pyValStr v
      else citation
    | none => citation
  { item with
    corpus_id := some corpus_id
    corpus_name := some corpus_name
    citation := some citation }

/-- One value of the per-corpus result map (`corpus_tools.py`, lines
960-965). -/
structure CorpusResultsEntry where
  corpus_id : String
  corpus_name : String
  results : List QueryResultItem
  count : Nat
  deriving DecidableEq

/-- The key used to order results: `relevance_score` with `None` as 0
(`corpus_tools.py`, line 970). -/
def scoreKey (item : QueryResultItem) : Int := item.relevance_score.getD 0

/-- Stable insertion into a list sorted descending by `scoreKey`: an element
moves before another only when its key is strictly greater, which preserves
the original order of equal keys, like Python `list.sort(reverse=True)`. -/
def insertDesc (x : QueryResultItem) : List QueryResultItem → List QueryResultItem
  | [] => [x]
  | y :: ys => if scoreKey y < scoreKey x then x :: y :: ys else y :: insertDesc x ys

/-- Stable sort, descending by `scoreKey`. -/
def sortByScoreDesc (l : List QueryResultItem) : List QueryResultItem :=
  l.foldr insertDesc []

/-- The response dictionary of `search_all_corpora`; `Option` fields model
the keys absent from the error and warning shapes. The `metadata_filter`
echo and the fixed `citation_note` string are omitted, and message texts are
abbreviated. -/
structure SearchAllResponse where
  status : String
  results : Option (List QueryResultItem)
  corpus_results : Option (List (String × CorpusResultsEntry))
  searched_corpora : Option (List String)
  citations_summary : Option (List String)
  count : Option Nat
  error_message : Option String
  message : String
  deriving DecidableEq

/-- The kept, annotated results of one corpus inside `search_all_corpora`
(`corpus_tools.py`, lines 922-956): the per-corpus query's results, annotated,
when that query reports success; nothing otherwise. -/
def keptCorpusResults (query_text : String) (top_k : Nat)
    (metadata_filter : Option (List (String × String)))
    (service : String → Nat → Except String (List RagContext))
    (c : CorpusInfo) : List QueryResultItem :=
  let qr := query_rag_corpus c.id query_text (some top_k) metadata_filter
    (service c.id)
  if qr.status = "success" then
    (qr.results.getD []).map (annotateItem (corpusDisplayName c) c.id)
  else []

/-- The body of the per-corpus loop of `search_all_corpora` (`corpus_tools.py`,
lines 918-966), acting on the
(all_results, corpus_results_map, searched_corpora) accumulator. -/
def searchAllStep (query_text : String) (top_k : Nat)
    (metadata_filter : Option (List (String × String)))
    (service : String → Nat → Except String (List RagContext))
    (acc : List QueryResultItem × List (String × CorpusResultsEntry) × List String)
    (c : CorpusInfo) :
    List QueryResultItem × List (String × CorpusResultsEntry) × List String :=
  let (all_results, corpus_results_map, searched) := acc
  let corpus_name := corpusDisplayName c
  let rs := keptCorpusResults query_text top_k metadata_filter service c
  if rs.isEmpty then (all_results, corpus_results_map, searched)
  else
    (all_results ++ rs,
     corpus_results_map ++ [(corpus_name, ⟨c.id, corpus_name, rs, rs.length⟩)],
     searched ++ [corpus_name])

/-- `corpus_results_map[corpus_name]` lookup for the citations summary. -/
def lookupEntry (m : List (String × CorpusResultsEntry)) (k : String) :
    Option CorpusResultsEntry :=
  (m.find? (fun kv => kv.1 = k)).map (fun kv => kv.2)

/-- `search_all_corpora` (`corpus_tools.py`, lines 869-1001): corpus listing
and the per-corpus retrieval calls are parameters; a listing failure is an
aggregate error, zero corpora a warning, and each per-corpus query failure
silently contributes nothing. -/
def search_all_corpora (query_text : String) (top_k_per_corpus : Option Nat)
    (metadata_filter : Option (List (String × String)))
    (listing : Except String (List CorpusInfo))
    (service : String → Nat → Except String (List RagContext)) :
    SearchAllResponse :=
  let top_k := top_k_per_corpus.getD RAG_DEFAULT_SEARCH_TOP_K
  match listing with
  | Except.error e =>
    ⟨"error", none, none, none, none, none,
      some ("Failed to list corpora: " ++ e),
      "Failed to search all corpora - could not retrieve corpus list"⟩
  | Except.ok corpora =>
    if corpora.isEmpty then
      ⟨"warning", none, none, none, none, none, none,
        "No corpora found to search in"⟩
    else
      let acc := corpora.foldl
        (searchAllStep query_text top_k metadata_filter service) ([], [], [])
      let (all_results, corpus_results_map, searched) := acc
      let sorted := sortByScoreDesc all_results
      let citations_summary := searched.map fun name =>
        match lookupEntry corpus_results_map name with
        | some e => name ++ " (" ++ e.corpus_id ++ "): " ++ toString e.count ++
            " results"
        | none => name
      ⟨"success", some sorted, some corpus_results_map, some searched,
        some citations_summary, some sorted.length, none,
        "Found " ++ toString sorted.length ++ " results for query '" ++
          query_text ++ "' across " ++ toString searched.length ++ " corpora"⟩

/-- The name-resolution loop of `search_corpus_by_name` (`corpus_tools.py`,
lines 1030-1034): the first corpus whose truthy display name equals the
requested name after stripping and lowercasing. -/
def resolveCorpus (corpus_name : String) (corpora : List CorpusInfo) :
    Option CorpusInfo :=
  corpora.find? fun c =>
    match c.display_name with
    | some dn => dn ≠ "" && pyLowerStrip dn = pyLowerStrip corpus_name
    | none => false

/-- `search_corpus_by_name` (`corpus_tools.py`, lines 1004-1049): resolve a
display name case-insensitively (after stripping) against the listed corpora,
first match wins, and delegate to `query_rag_corpus`; a listing failure and a
missing name give distinct error dictionaries (without `corpus_id`). -/
def search_corpus_by_name (corpus_name : String) (query_text : String)
    (metadata_filter : Option (List (String × String)))
    (listing : Except String (List CorpusInfo))
    (service : String → Nat → Except String (List RagContext)) : QueryResponse :=
  match listing with
  | Except.error _ =>
    ⟨"error", none, none, none,
      some ("Failed to list corpora to find '" ++ corpus_name ++ "'."),
      "Could not find corpus '" ++ corpus_name ++
        "' because listing corpora failed.", none⟩
  | Except.ok corpora =>
    match resolveCorpus corpus_name corpora with
    | none =>
      ⟨"error", none, none, none, none,
        "Error: Corpus with name '" ++ corpus_name ++ "' not found.", none⟩
    | some c =>
      query_rag_corpus c.id query_text none metadata_filter (service c.id)

/-! ### Shared concrete fixtures for the claim theorems -/

/-- A context whose metadata carries the board value that `validate_metadata`
stores for the input `"Tamil Nadu Board"`. -/
def tamilNaduCtx : RagContext :=
  ⟨some "The Cauvery delta", some "gs://b/tn.pdf", none, none, none, none, none,
    some [("board", PyVal.str "TAMIL_NADU_BOARD")]⟩

/-- A context from the `Science` collection example of the spec: structured
page field 7, source `gs://b/unit3.pdf`. -/
def scienceCtx : RagContext :=
  ⟨some "Photosynthesis basics", some "gs://b/unit3.pdf", some 1,
    some (PyVal.int 7), none, none, none, none⟩

/-- The first kept citation of a `search_all_corpora` response. -/
def firstCitation (r : SearchAllResponse) : Option String :=
  match r.results with
  | some (item :: _) => item.citation
  | _ => none

/-! ### Claim theorems -/

/-- Claim C3, counterexample to the claim as stated: `normalize_board` is not
idempotent. Normalizing `"ab"` yields `"AB"`, but normalizing `"AB"` again
yields `"A_B"`, because the camelCase regex splits the consecutive capitals
produced by the uppercasing stage. -/
theorem C3_counterexample :
    normalizeBoardS "ab" = "AB" ∧
    normalizeBoardS (normalizeBoardS "ab") = "A_B" ∧
    normalizeBoardS (normalizeBoardS "ab") ≠ normalizeBoardS "ab" :=
  ⟨by decide, by decide, by decide⟩

/-- Claim C3 (amended): the board normalization of `create_metadata_filter`
is not idempotent, but it stabilizes after two applications on every string
whose whitespace characters are all plain spaces:
`normalize_board (normalize_board (normalize_board s)) =
normalize_board (normalize_board s)`. -/
theorem C3_normalize_board_stabilizes (s : String)
    (h : ∀ c ∈ s.data, pyIsSpace c = true → c = ' ') :
    normalizeBoardS (normalizeBoardS (normalizeBoardS s)) =
      normalizeBoardS (normalizeBoardS s) := by
  show String.mk (normalize_board (String.mk (normalize_board
      (String.mk (normalize_board s.data)).data)).data) =
    String.mk (normalize_board (String.mk (normalize_board s.data)).data)
  rw [show ∀ l : List Char, (String.mk l).data = l from fun _ => rfl,
    show ∀ l : List Char, (String.mk l).data = l from fun _ => rfl]
  exact congrArg String.mk (normalize_board_triple s.data h)

/-- Witness for C3: the stabilization theorem applied at
`"Tamil Nadu Board"`. -/
theorem C3_normalize_board_stabilizes_witness :
    (∀ c ∈ ("Tamil Nadu Board" : String).data, pyIsSpace c = true → c = ' ') ∧
    normalizeBoardS (normalizeBoardS (normalizeBoardS "Tamil Nadu Board")) =
      normalizeBoardS (normalizeBoardS "Tamil Nadu Board") :=
  ⟨by decide, C3_normalize_board_stabilizes "Tamil Nadu Board" (by decide)⟩

/-- Claim C2, the code evaluated at the failing input: a document ingested
with board `"Tamil Nadu Board"` is stored with `"TAMIL_NADU_BOARD"`; the query
filter `"TamilNaduBoard"` normalizes, via `create_metadata_filter`, to
`"TAMIL_NADU_BOARD"` as well — yet the client-side inclusion logic REJECTS the
pair, because it re-normalizes the stored value after uppercasing (splitting
it to `"T_A_M_I_L_N_A_D_U_B_O_A_R_D"`) but never applies the camelCase split
to the filter value. The spelling `"TAMIL_NADU_BOARD"`, by contrast, is
accepted, so the claimed symmetry fails for `"TamilNaduBoard"`. -/
theorem C2_board_filter_asymmetry :
    (validate_metadata [("board", PyVal.str "Tamil Nadu Board"),
        ("grade", PyVal.str "10"), ("subject", PyVal.str "Math")] false).normalized =
      some [("board", PyVal.str "TAMIL_NADU_BOARD"), ("grade", PyVal.str "10"),
        ("subject", PyVal.str "Math")] ∧
    normalizedFilterOf (some [("board", "TamilNaduBoard")]) =
      some [("board", "TAMIL_NADU_BOARD")] ∧
    fieldMatches "board" (PyVal.str "TAMIL_NADU_BOARD") "TAMIL_NADU_BOARD" = false ∧
    (query_rag_corpus "c1" "rivers" (some 5) (some [("board", "TamilNaduBoard")])
      (fun _ => Except.ok [tamilNaduCtx])).results = some [] ∧
    normalizedFilterOf (some [("board", "TAMIL_NADU_BOARD")]) =
      some [("board", "T_A_M_I_L_N_A_D_U_B_O_A_R_D")] ∧
    (query_rag_corpus "c1" "rivers" (some 5) (some [("board", "TAMIL_NADU_BOARD")])
      (fun _ => Except.ok [tamilNaduCtx])).count = some 1 :=
  ⟨by decide, by decide, by decide, by decide, by decide, by decide⟩

/-- Claim C5 (amended): when corpus discovery succeeds with zero corpora,
`search_all_corpora` returns the warning dictionary: `status="warning"` and a
message, with NO results key (rather than an empty results list). -/
theorem C5_empty_corpora_warning (q : String) (tk : Option Nat)
    (mf : Option (List (String × String)))
    (svc : String → Nat → Except String (List RagContext)) :
    search_all_corpora q tk mf (Except.ok []) svc =
      ⟨"warning", none, none, none, none, none, none,
        "No corpora found to search in"⟩ := rfl

/-- Claim C5, counterexample to the claim as stated: the warning response
carries no `results` key at all (`results = none` in the model), not an empty
list (`results = some []`). -/
theorem C5_counterexample :
    (search_all_corpora "q" none none (Except.ok [])
      (fun _ _ => Except.ok [])).status = "warning" ∧
    (search_all_corpora "q" none none (Except.ok [])
      (fun _ _ => Except.ok [])).results = none ∧
    (search_all_corpora "q" none none (Except.ok [])
      (fun _ _ => Except.ok [])).results ≠ some [] :=
  ⟨rfl, rfl, by decide⟩

/-- Claim C8: validating `[subject: "Math"]` yields `valid = false` with
exactly the two missing-required-field errors and no normalized mapping; and
for every input, the normalized mapping is populated exactly when the error
list is empty. -/
theorem C8_required_field_gate :
    (validate_metadata [("subject", PyVal.str "Math")] false =
      ⟨false, ["Missing required field: 'board'", "Missing required field: 'grade'"],
        [], none⟩) ∧
    ∀ (md : List (String × PyVal)) (strict : Bool),
      ((validate_metadata md strict).normalized ≠ none ↔
        (validate_metadata md strict).errors = []) := by
  refine ⟨by decide, ?_⟩
  intro md strict
  unfold validate_metadata
  rcases validateCore md strict with ⟨e, w, n⟩
  simp only
  by_cases he : e.length = 0
  · simp only [he, if_true, if_pos]
    constructor
    · intro _
      exact List.length_eq_zero.mp he
    · intro _
      exact Option.some_ne_none n
  · simp only [he, if_false, if_neg]
    constructor
    · intro hcon
      exact absurd rfl hcon
    · intro hcon
      exact absurd (by rw [hcon]; rfl : e.length = 0) he

/-! Length bound for the filtered context loop. -/

theorem processLoop_length_le {f : List (String × String)} {k : Nat}
    (hf : f.isEmpty = false) :
    ∀ (contexts : List RagContext) (acc : List QueryResultItem),
      acc.length < k →
      (processLoop (some f) k acc contexts).length ≤ k := by
  intro contexts
  induction contexts with
  | nil =>
    intro acc hacc
    exact Nat.le_of_lt hacc
  | cons ctx rest ih =>
    intro acc hacc
    unfold processLoop
    simp only [hf, Bool.false_eq_true, if_false]
    split
    next hkeep =>
      have hlen : (acc ++ [processContext ctx]).length = acc.length + 1 := by
        simp
      split
      next hbreak =>
        rw [hlen]
        exact hacc
      next hbreak =>
        apply ih
        rw [hlen]
        omega
    next hkeep => exact ih acc hacc

/-- Claim C4 (amended): `query_rag_corpus` requests `2 × top_k` raw
candidates exactly when the supplied metadata filter still contains a
recognized field after normalization (it requests exactly `top_k` otherwise,
in particular for a filter of only unrecognized fields); and with such a
filter and `top_k ≥ 1` the returned results list never exceeds `top_k`
entries, whatever the service returns. -/
theorem C4_topk_request_and_cap (k : Nat) (mf : Option (List (String × String))) :
    (filterTruthy (normalizedFilterOf mf) = true →
      requestedTopK k (normalizedFilterOf mf) = 2 * k) ∧
    (filterTruthy (normalizedFilterOf mf) = false →
      requestedTopK k (normalizedFilterOf mf) = k) ∧
    (filterTruthy (normalizedFilterOf mf) = true → 1 ≤ k →
      ∀ (cid q : String) (svc : Nat → Except String (List RagContext)),
        ((query_rag_corpus cid q (some k) mf svc).results.getD []).length ≤ k) := by
  refine ⟨?_, ?_, ?_⟩
  · intro ht
    unfold requestedTopK
    rw [ht]
    simp [Nat.mul_comm]
  · intro hf
    unfold requestedTopK
    rw [hf]
    simp
  · intro ht hk cid q svc
    unfold query_rag_corpus
    simp only [Option.getD_some]
    match svc (requestedTopK k (normalizedFilterOf mf)) with
    | Except.error e => simp
    | Except.ok contexts =>
      simp only [Option.getD_some]
      match hnf : normalizedFilterOf mf with
      | none => rw [hnf] at ht; exact absurd ht (by decide)
      | some f =>
        rw [hnf] at ht
        unfold filterTruthy at ht
        simp only [Bool.not_eq_true'] at ht
        exact processLoop_length_le ht contexts [] (by simpa using hk)

/-- Claim C4, counterexample to the claim as stated: a supplied metadata
filter consisting only of unrecognized fields normalizes to an empty filter,
and the retrieval request then asks for `top_k`, not `2 × top_k`. -/
theorem C4_counterexample :
    normalizedFilterOf (some [("foo", "bar")]) = some [] ∧
    requestedTopK 5 (normalizedFilterOf (some [("foo", "bar")])) = 5 ∧
    requestedTopK 5 (normalizedFilterOf (some [("foo", "bar")])) ≠ 2 * 5 :=
  ⟨by decide, by decide, by decide⟩

/-- Witness for C4: a recognized-field filter with `top_k = 5` requests 10
raw candidates, and twelve matching raw candidates still yield at most five
results. -/
theorem C4_topk_witness :
    requestedTopK 5 (normalizedFilterOf (some [("board", "CBSE")])) = 2 * 5 ∧
    ((query_rag_corpus "c1" "q" (some 5) (some [("board", "CBSE")])
      (fun _ => Except.ok (List.replicate 12 tamilNaduCtx))).results.getD
        []).length ≤ 5 :=
  ⟨(C4_topk_request_and_cap 5 (some [("board", "CBSE")])).1 (by decide),
   (C4_topk_request_and_cap 5 (some [("board", "CBSE")])).2.2 (by decide)
     (by decide) "c1" "q" (fun _ => Except.ok (List.replicate 12 tamilNaduCtx))⟩

/-- Claim C1 (amended): for a passage kept by the multi-corpus search with a
truthy source URI and a recovered page number, the attached citation is
`[Source: <name> (<id>)]` with ` File: <filename>` and ` Page: <n>` appended
AFTER the closing bracket (not inside it); the filename is the last path
segment of the URI with any `#` fragment stripped. -/
theorem C1_citation_format (name id : String) (item : QueryResultItem)
    (uri : String) (v : PyVal)
    (hu : item.source_uri = some uri) (hne : uri ≠ "")
    (hp : item.page_number = some v) (hv : v ≠ PyVal.nil) :
    (annotateItem name id item).citation =
      some ("[Source: " ++ name ++ " (" ++ id ++ ")]" ++ " File: " ++
        fileNameOf uri ++ " Page: " ++ pyValStr v) := by
  unfold annotateItem
  rw [hu, hp]
  simp only
  rw [if_pos hv, if_pos hne]

/-- Witness for C1: the amended citation shape at the spec's own example,
collection `Science (42)`, file `gs://b/unit3.pdf`, recovered page 7. -/
theorem C1_citation_format_witness :
    (annotateItem "Science" "42" (processContext scienceCtx)).citation =
      some ("[Source: " ++ "Science" ++ " (" ++ "42" ++ ")]" ++ " File: " ++
        fileNameOf "gs://b/unit3.pdf" ++ " Page: " ++ pyValStr (PyVal.int 7)) :=
  C1_citation_format "Science" "42" (processContext scienceCtx)
    "gs://b/unit3.pdf" (PyVal.int 7) (by decide) (by decide) (by decide)
    (by decide)

/-- Claim C1, counterexample to the claim as stated: running the full
multi-corpus search on the spec's example yields the citation
`[Source: Science (42)] File: unit3.pdf Page: 7` — the closing bracket stands
right after the collection id, so the claimed rendering
`[Source: Science (42) File: unit3.pdf Page: 7]` is not produced. -/
theorem C1_counterexample :
    firstCitation (search_all_corpora "photosynthesis" none none
        (Except.ok [⟨"42", some "Science"⟩])
        (fun _ _ => Except.ok [scienceCtx])) =
      some "[Source: Science (42)] File: unit3.pdf Page: 7" ∧
    firstCitation (search_all_corpora "photosynthesis" none none
        (Except.ok [⟨"42", some "Science"⟩])
        (fun _ _ => Except.ok [scienceCtx])) ≠
      some "[Source: Science (42) File: unit3.pdf Page: 7]" :=
  ⟨by decide, by decide⟩

/-- A context with no structured page data, a `#page=12` URI fragment, and a
body text containing "page 45": the spec's page-priority example. -/
def uriOverTextCtx : RagContext :=
  ⟨some "research page 45 notes", some "gs://b/f.pdf#page=12", none, none,
    none, none, none, none⟩

/-- Claim C7: page recovery tries the structured stage, then the URI
fragment, then the text patterns, stopping at the first stage that yields a
value, and attaches at most one page number; on the spec's example (no
structured field, URI `gs://b/f.pdf#page=12`, text containing "page 45") the
recovered page is 12. -/
theorem C7_page_priority (ctx : RagContext) :
    (structuredPage ctx ≠ PyVal.nil →
      (processContext ctx).page_number = some (structuredPage ctx)) ∧
    (structuredPage ctx = PyVal.nil →
      uriStagePage ctx.source_uri ≠ PyVal.nil →
      (processContext ctx).page_number = some (uriStagePage ctx.source_uri)) ∧
    (structuredPage ctx = PyVal.nil → uriStagePage ctx.source_uri = PyVal.nil →
      textStagePage (ctx.text.getD "") ≠ PyVal.nil →
      (processContext ctx).page_number =
        some (textStagePage (ctx.text.getD ""))) ∧
    (structuredPage ctx = PyVal.nil → uriStagePage ctx.source_uri = PyVal.nil →
      textStagePage (ctx.text.getD "") = PyVal.nil →
      (processContext ctx).page_number = none) ∧
    (processContext uriOverTextCtx).page_number = some (PyVal.int 12) := by
  refine ⟨?_, ?_, ?_, ?_, by decide⟩
  · intro hs
    unfold processContext
    simp only [hs, if_false, ite_false, if_neg, not_false_eq_true]
  · intro hs hu
    unfold processContext
    simp only [hs, hu, ite_true, ite_false, if_pos, if_neg, not_false_eq_true]
  · intro hs hu htx
    unfold processContext
    simp only [hs, hu, htx, ite_true, ite_false]
  · intro hs hu htx
    unfold processContext
    simp only [hs, hu, htx, ite_true, ite_false]

/-- Witness for C7: the URI branch of the priority theorem at the example
context, together with the value that branch recovers. -/
theorem C7_page_priority_witness :
    (processContext uriOverTextCtx).page_number =
      some (uriStagePage uriOverTextCtx.source_uri) ∧
    uriStagePage uriOverTextCtx.source_uri = PyVal.int 12 :=
  ⟨(C7_page_priority uriOverTextCtx).2.1 (by decide) (by decide), by decide⟩

/-- Helper for C9: a per-corpus query reports either success or error. -/
theorem query_status_cases (cid q : String) (tk : Option Nat)
    (mf : Option (List (String × String)))
    (svc : Nat → Except String (List RagContext)) :
    (query_rag_corpus cid q tk mf svc).status = "success" ∨
    (query_rag_corpus cid q tk mf svc).status = "error" := by
  unfold query_rag_corpus
  cases hs : svc (requestedTopK (tk.getD RAG_DEFAULT_TOP_K)
      (normalizedFilterOf mf)) with
  | error e =>
    simp [hs]
  | ok ctxs =>
    simp [hs]

/-- Claim C9: the public query operations always return a status-tagged
dictionary; a failing retrieval call surfaces as `status="error"` with the
cause in `error_message`, a failing listing aborts `search_all_corpora` with
an aggregate error, and every reachable return value of the three operations
carries one of the statuses success/warning/error (in the shallow embedding,
totality of these functions models that no exception escapes). -/
theorem C9_status_tagged_results :
    (∀ (cid q : String) (tk : Option Nat) (mf : Option (List (String × String)))
      (e : String),
      (query_rag_corpus cid q tk mf (fun _ => Except.error e)).status = "error" ∧
      (query_rag_corpus cid q tk mf (fun _ => Except.error e)).error_message =
        some e) ∧
    (∀ cid q tk mf svc,
      (query_rag_corpus cid q tk mf svc).status = "success" ∨
      (query_rag_corpus cid q tk mf svc).status = "error") ∧
    (∀ (q : String) (tk : Option Nat) (mf : Option (List (String × String)))
      (e : String) svc,
      (search_all_corpora q tk mf (Except.error e) svc).status = "error" ∧
      (search_all_corpora q tk mf (Except.error e) svc).error_message =
        some ("Failed to list corpora: " ++ e)) ∧
    (∀ (q : String) (tk : Option Nat) (mf : Option (List (String × String)))
      (listing : Except String (List CorpusInfo)) svc,
      (search_all_corpora q tk mf listing svc).status = "success" ∨
      (search_all_corpora q tk mf listing svc).status = "warning" ∨
      (search_all_corpora q tk mf listing svc).status = "error") ∧
    (∀ (nm q : String) (mf : Option (List (String × String)))
      (listing : Except String (List CorpusInfo)) svc,
      (search_corpus_by_name nm q mf listing svc).status = "success" ∨
      (search_corpus_by_name nm q mf listing svc).status = "error") := by
  refine ⟨?_, ?_, ?_, ?_, ?_⟩
  · intro cid q tk mf e
    exact ⟨rfl, rfl⟩
  · intro cid q tk mf svc
    exact query_status_cases cid q tk mf svc
  · intro q tk mf e svc
    exact ⟨rfl, rfl⟩
  · intro q tk mf listing svc
    cases listing with
    | error e => exact Or.inr (Or.inr rfl)
    | ok corpora =>
      unfold search_all_corpora
      by_cases hc : corpora.isEmpty = true
      · simp [hc]
      · simp [hc]
  · intro nm q mf listing svc
    cases listing with
    | error e => exact Or.inr rfl
    | ok corpora =>
      unfold search_corpus_by_name
      cases hf : resolveCorpus nm corpora with
      | none =>
        simp [hf]
      | some c =>
        simp only [hf]
        exact query_status_cases c.id q none mf (svc c.id)

/-! ### The accumulator of the per-corpus loop of `search_all_corpora` -/

/-- The `keep?` test of one corpus: its kept, annotated results are
nonempty. -/
def keepsCorpus (q : String) (k : Nat) (mf : Option (List (String × String)))
    (svc : String → Nat → Except String (List RagContext)) (c : CorpusInfo) :
    Bool :=
  !(keptCorpusResults q k mf svc c).isEmpty

/-- The per-corpus map entry built for one kept corpus. -/
def corpusEntry (q : String) (k : Nat) (mf : Option (List (String × String)))
    (svc : String → Nat → Except String (List RagContext)) (c : CorpusInfo) :
    String × CorpusResultsEntry :=
  (corpusDisplayName c,
    ⟨c.id, corpusDisplayName c, keptCorpusResults q k mf svc c,
      (keptCorpusResults q k mf svc c).length⟩)

theorem searchAllStep_drop {q : String} {k : Nat}
    {mf : Option (List (String × String))}
    {svc : String → Nat → Except String (List RagContext)} {c : CorpusInfo}
    (h : (keptCorpusResults q k mf svc c).isEmpty = true)
    (A : List QueryResultItem) (M : List (String × CorpusResultsEntry))
    (S : List String) :
    searchAllStep q k mf svc (A, M, S) c = (A, M, S) := by
  unfold searchAllStep
  simp only [h, if_true, ite_true]

theorem searchAllStep_keep {q : String} {k : Nat}
    {mf : Option (List (String × String))}
    {svc : String → Nat → Except String (List RagContext)} {c : CorpusInfo}
    (h : (keptCorpusResults q k mf svc c).isEmpty = false)
    (A : List QueryResultItem) (M : List (String × CorpusResultsEntry))
    (S : List String) :
    searchAllStep q k mf svc (A, M, S) c =
      (A ++ keptCorpusResults q k mf svc c, M ++ [corpusEntry q k mf svc c],
        S ++ [corpusDisplayName c]) := by
  unfold searchAllStep corpusEntry
  simp only [h, Bool.false_eq_true, if_false, ite_false]

theorem searchAll_foldl_spec (q : String) (k : Nat)
    (mf : Option (List (String × String)))
    (svc : String → Nat → Except String (List RagContext)) :
    ∀ (cs : List CorpusInfo) (A : List QueryResultItem)
      (M : List (String × CorpusResultsEntry)) (S : List String),
      cs.foldl (searchAllStep q k mf svc) (A, M, S) =
        (A ++ (cs.map (keptCorpusResults q k mf svc)).flatten,
         M ++ (cs.filter (keepsCorpus q k mf svc)).map (corpusEntry q k mf svc),
         S ++ (cs.filter (keepsCorpus q k mf svc)).map corpusDisplayName) := by
  intro cs
  induction cs with
  | nil =>
    intro A M S
    simp
  | cons c cs ih =>
    intro A M S
    rw [List.foldl_cons]
    by_cases hk : (keptCorpusResults q k mf svc c).isEmpty = true
    · rw [searchAllStep_drop hk A M S, ih A M S]
      have hk2 : keepsCorpus q k mf svc c = false := by
        unfold keepsCorpus
        rw [hk]
        rfl
      have hkept : keptCorpusResults q k mf svc c = [] :=
        List.isEmpty_iff.mp hk
      simp only [List.map_cons, List.flatten_cons, List.filter_cons, hk2,
        Bool.false_eq_true, if_false, hkept, List.nil_append]
    · have hk' : (keptCorpusResults q k mf svc c).isEmpty = false :=
        Bool.eq_false_iff.mpr hk
      rw [searchAllStep_keep hk' A M S, ih]
      have hk2 : keepsCorpus q k mf svc c = true := by
        unfold keepsCorpus
        rw [hk']
        rfl
      simp only [List.map_cons, List.flatten_cons, List.filter_cons, hk2,
        if_true, List.append_assoc, List.cons_append, List.nil_append]

/-- The success-shape response of `search_all_corpora` on a nonempty corpus
list, with every field expressed through the per-corpus kept results. -/
theorem searchAll_success_spec (q : String) (tk : Option Nat)
    (mf : Option (List (String × String)))
    (svc : String → Nat → Except String (List RagContext))
    (cs : List CorpusInfo) (hcs : cs ≠ []) :
    search_all_corpora q tk mf (Except.ok cs) svc =
      (let k := tk.getD RAG_DEFAULT_SEARCH_TOP_K
       let sorted := sortByScoreDesc
         ((cs.map (keptCorpusResults q k mf svc)).flatten)
       let m := (cs.filter (keepsCorpus q k mf svc)).map (corpusEntry q k mf svc)
       let s := (cs.filter (keepsCorpus q k mf svc)).map corpusDisplayName
       ⟨"success", some sorted, some m, some s,
        some (s.map fun name =>
          match lookupEntry m name with
          | some e => name ++ " (" ++ e.corpus_id ++ "): " ++ toString e.count ++
              " results"
          | none => name),
        some sorted.length, none,
        "Found " ++ toString sorted.length ++ " results for query '" ++ q ++
          "' across " ++ toString s.length ++ " corpora"⟩) := by
  unfold search_all_corpora
  have hne : cs.isEmpty = false := by
    cases cs with
    | nil => exact absurd rfl hcs
    | cons a l => rfl
  simp only [hne, Bool.false_eq_true, if_false,
    searchAll_foldl_spec q (tk.getD RAG_DEFAULT_SEARCH_TOP_K) mf svc cs [] [] [],
    List.nil_append]

/-- A failed per-corpus query keeps nothing. -/
theorem kept_of_failed {q : String} {k : Nat}
    {mf : Option (List (String × String))}
    {svc : String → Nat → Except String (List RagContext)} {c : CorpusInfo}
    (h : (query_rag_corpus c.id q (some k) mf (svc c.id)).status ≠ "success") :
    keptCorpusResults q k mf svc c = [] := by
  unfold keptCorpusResults
  rw [if_neg h]

/-- A successful per-corpus query that keeps zero results keeps nothing. -/
theorem kept_of_empty_success {q : String} {k : Nat}
    {mf : Option (List (String × String))}
    {svc : String → Nat → Except String (List RagContext)} {c : CorpusInfo}
    (h : (query_rag_corpus c.id q (some k) mf (svc c.id)).results = some []) :
    keptCorpusResults q k mf svc c = [] := by
  unfold keptCorpusResults
  show (if (query_rag_corpus c.id q (some k) mf (svc c.id)).status = "success"
    then ((query_rag_corpus c.id q (some k) mf (svc c.id)).results.getD []).map
      (annotateItem (corpusDisplayName c) c.id) else []) = []
  split
  · rw [h]
    rfl
  · rfl

/-- Looking a display name up in the per-corpus map built over corpora with
pairwise distinct display names finds that corpus's own entry. -/
theorem lookupEntry_map_entry (q : String) (k : Nat)
    (mf : Option (List (String × String)))
    (svc : String → Nat → Except String (List RagContext)) :
    ∀ (l : List CorpusInfo), (l.map corpusDisplayName).Nodup →
      ∀ c ∈ l, lookupEntry (l.map (corpusEntry q k mf svc)) (corpusDisplayName c) =
        some ⟨c.id, corpusDisplayName c, keptCorpusResults q k mf svc c,
          (keptCorpusResults q k mf svc c).length⟩
  | [], _, c, hc => absurd hc (List.not_mem_nil c)
  | a :: l, hnd, c, hc => by
    rw [List.map_cons, List.nodup_cons] at hnd
    rcases List.mem_cons.mp hc with hca | hcl
    · subst hca
      unfold lookupEntry corpusEntry
      rw [List.map_cons, List.find?_cons_of_pos _ (by simp [corpusEntry])]
      rfl
    · have hne : corpusDisplayName a ≠ corpusDisplayName c := by
        intro hcon
        exact hnd.1 (hcon ▸ List.mem_map_of_mem corpusDisplayName hcl)
      unfold lookupEntry
      rw [List.map_cons, List.find?_cons_of_neg _ (by simp [corpusEntry, hne])]
      exact lookupEntry_map_entry q k mf svc l hnd.2 c hcl

/-- Claim C6: when corpus discovery succeeds with at least one corpus,
`search_all_corpora` reports success whatever the individual queries did; the
merged result list is exactly the concatenation of the kept results of the
SUCCESSFUL per-corpus queries (then sorted); a corpus whose query does not
report success keeps nothing; and a display name is listed in
`searched_corpora` only when some corpus bearing it produced kept results, so
a failed corpus is absent from it. -/
theorem C6_partial_failure_isolation (q : String) (tk : Option Nat)
    (mf : Option (List (String × String)))
    (svc : String → Nat → Except String (List RagContext))
    (cs : List CorpusInfo) (hcs : cs ≠ []) :
    (search_all_corpora q tk mf (Except.ok cs) svc).status = "success" ∧
    (search_all_corpora q tk mf (Except.ok cs) svc).results =
      some (sortByScoreDesc ((cs.map
        (keptCorpusResults q (tk.getD RAG_DEFAULT_SEARCH_TOP_K) mf svc)).flatten)) ∧
    (search_all_corpora q tk mf (Except.ok cs) svc).searched_corpora =
      some ((cs.filter
        (keepsCorpus q (tk.getD RAG_DEFAULT_SEARCH_TOP_K) mf svc)).map
          corpusDisplayName) ∧
    (∀ c ∈ cs,
      (query_rag_corpus c.id q (some (tk.getD RAG_DEFAULT_SEARCH_TOP_K)) mf
        (svc c.id)).status ≠ "success" →
      keptCorpusResults q (tk.getD RAG_DEFAULT_SEARCH_TOP_K) mf svc c = []) ∧
    (∀ c ∈ cs,
      (∀ c' ∈ cs, corpusDisplayName c' = corpusDisplayName c →
        (query_rag_corpus c'.id q (some (tk.getD RAG_DEFAULT_SEARCH_TOP_K)) mf
          (svc c'.id)).status ≠ "success") →
      ∀ S, (search_all_corpora q tk mf (Except.ok cs) svc).searched_corpora =
        some S → corpusDisplayName c ∉ S) := by
  rw [searchAll_success_spec q tk mf svc cs hcs]
  refine ⟨rfl, rfl, rfl, ?_, ?_⟩
  · intro c _ hfail
    exact kept_of_failed hfail
  · intro c _ hall S hS
    injection hS with hS
    subst hS
    intro hmem
    obtain ⟨c', hc'filter, hc'name⟩ := List.mem_map.mp hmem
    obtain ⟨hc'cs, hc'keep⟩ := List.mem_filter.mp hc'filter
    have hkept : keptCorpusResults q (tk.getD RAG_DEFAULT_SEARCH_TOP_K) mf svc c' = [] :=
      kept_of_failed (hall c' hc'cs hc'name)
    unfold keepsCorpus at hc'keep
    rw [hkept] at hc'keep
    exact absurd hc'keep (by decide)

/-- Corpora used by the C6 and C10 witnesses: `Alpha`, `Beta`, `Gamma`. -/
def wCorpora : List CorpusInfo :=
  [⟨"A", some "Alpha"⟩, ⟨"B", some "Beta"⟩, ⟨"C", some "Gamma"⟩]

/-- A retrieval behavior where corpus `B` raises, corpus `C` succeeds with
zero candidates, and every other corpus returns one candidate. -/
def wSvc : String → Nat → Except String (List RagContext) := fun cid =>
  if cid = "B" then fun _ => Except.error "boom"
  else if cid = "C" then fun _ => Except.ok []
  else fun _ => Except.ok [scienceCtx]

/-- Witness for C6: with `Beta` raising and `Alpha`/`Gamma` succeeding, the
aggregate search still reports success, and the failed corpus keeps
nothing. -/
theorem C6_partial_failure_isolation_witness :
    (search_all_corpora "q" none none (Except.ok wCorpora) wSvc).status =
      "success" ∧
    keptCorpusResults "q" 5 none wSvc ⟨"B", some "Beta"⟩ = [] :=
  ⟨(C6_partial_failure_isolation "q" none none wSvc wCorpora (by decide)).1,
   (C6_partial_failure_isolation "q" none none wSvc wCorpora
      (by decide)).2.2.2.1 ⟨"B", some "Beta"⟩ (by decide) (by decide)⟩

/-- Claim C10: `searched_corpora`, the per-corpus result map and
`citations_summary` are all computed from the corpora whose kept result list
is nonempty; a corpus whose query failed and a corpus whose query succeeded
with zero kept results both keep nothing, so those three output fields treat
the two cases identically. Display names are assumed pairwise distinct (the
per-corpus map is keyed by name). -/
theorem C10_empty_success_like_failed (q : String) (tk : Option Nat)
    (mf : Option (List (String × String)))
    (svc : String → Nat → Except String (List RagContext))
    (cs : List CorpusInfo) (hcs : cs ≠ [])
    (hnd : (cs.map corpusDisplayName).Nodup) :
    (search_all_corpora q tk mf (Except.ok cs) svc).searched_corpora =
      some ((cs.filter
        (keepsCorpus q (tk.getD RAG_DEFAULT_SEARCH_TOP_K) mf svc)).map
          corpusDisplayName) ∧
    (search_all_corpora q tk mf (Except.ok cs) svc).corpus_results =
      some ((cs.filter
        (keepsCorpus q (tk.getD RAG_DEFAULT_SEARCH_TOP_K) mf svc)).map
          (corpusEntry q (tk.getD RAG_DEFAULT_SEARCH_TOP_K) mf svc)) ∧
    (search_all_corpora q tk mf (Except.ok cs) svc).citations_summary =
      some ((cs.filter
        (keepsCorpus q (tk.getD RAG_DEFAULT_SEARCH_TOP_K) mf svc)).map fun c =>
          corpusDisplayName c ++ " (" ++ c.id ++ "): " ++
            toString (keptCorpusResults q (tk.getD RAG_DEFAULT_SEARCH_TOP_K)
              mf svc c).length ++ " results") ∧
    (∀ c ∈ cs,
      (query_rag_corpus c.id q (some (tk.getD RAG_DEFAULT_SEARCH_TOP_K)) mf
        (svc c.id)).status ≠ "success" →
      keptCorpusResults q (tk.getD RAG_DEFAULT_SEARCH_TOP_K) mf svc c = []) ∧
    (∀ c ∈ cs,
      (query_rag_corpus c.id q (some (tk.getD RAG_DEFAULT_SEARCH_TOP_K)) mf
        (svc c.id)).results = some [] →
      keptCorpusResults q (tk.getD RAG_DEFAULT_SEARCH_TOP_K) mf svc c = []) ∧
    (∀ c ∈ cs,
      keptCorpusResults q (tk.getD RAG_DEFAULT_SEARCH_TOP_K) mf svc c = [] →
      keepsCorpus q (tk.getD RAG_DEFAULT_SEARCH_TOP_K) mf svc c = false) := by
  rw [searchAll_success_spec q tk mf svc cs hcs]
  refine ⟨rfl, rfl, ?_, ?_, ?_, ?_⟩
  · show some (((cs.filter _).map corpusDisplayName).map _) = _
    rw [List.map_map]
    refine congrArg some (List.map_congr_left ?_)
    intro c hc
    obtain ⟨hccs, _⟩ := List.mem_filter.mp hc
    have hnd' : ((cs.filter
        (keepsCorpus q (tk.getD RAG_DEFAULT_SEARCH_TOP_K) mf svc)).map
          corpusDisplayName).Nodup :=
      hnd.sublist (List.Sublist.map corpusDisplayName (List.filter_sublist cs))
    have hl := lookupEntry_map_entry q (tk.getD RAG_DEFAULT_SEARCH_TOP_K) mf svc
      (cs.filter (keepsCorpus q (tk.getD RAG_DEFAULT_SEARCH_TOP_K) mf svc))
      hnd' c hc
    simp only [Function.comp_apply, hl]
  · intro c _ hfail
    exact kept_of_failed hfail
  · intro c _ hempty
    exact kept_of_empty_success hempty
  · intro c _ hkept
    unfold keepsCorpus
    rw [hkept]
    rfl

/-- Witness for C10: with `Beta` raising and `Gamma` succeeding empty, only
`Alpha` is listed, and both excluded corpora keep nothing. -/
theorem C10_empty_success_like_failed_witness :
    (search_all_corpora "q" none none (Except.ok wCorpora) wSvc).searched_corpora =
      some ["Alpha"] ∧
    keptCorpusResults "q" 5 none wSvc ⟨"B", some "Beta"⟩ = [] ∧
    keptCorpusResults "q" 5 none wSvc ⟨"C", some "Gamma"⟩ = [] :=
  ⟨by rw [(C10_empty_success_like_failed "q" none none wSvc wCorpora
      (by decide) (by decide)).1]; decide,
   (C10_empty_success_like_failed "q" none none wSvc wCorpora (by decide)
      (by decide)).2.2.2.1 ⟨"B", some "Beta"⟩ (by decide) (by decide),
   (C10_empty_success_like_failed "q" none none wSvc wCorpora (by decide)
      (by decide)).2.2.2.2.1 ⟨"C", some "Gamma"⟩ (by decide) (by decide)⟩

end Rag
